import Mathlib

/-!
Shallow embedding of the family-group coordinator of the
remnawave-bedolaga-telegram-bot repository, together with proofs of the
specification claims about it.

The data model follows app/database/models.py; the operations follow
app/services/family_service.py and app/services/effective_subscription_service.py.
Timestamps are modelled as natural numbers (seconds); `datetime.now(UTC)` becomes
an explicit `now` parameter.  The async SQLAlchemy session becomes explicit state
passing over a `DB` record; row locks serialise operations, so each public
operation is a function from a committed state to a committed state.
-/

namespace FamilyCoordinator

/-- Tariff row (app/database/models.py): the two fields the family coordinator
reads.  `family_max_members` is a Python int, hence `Int`. -/
structure Tariff where
  family_enabled : Bool
  family_max_members : Int
deriving DecidableEq, Repr

/-- Subscription row: the fields read by the family / effective-subscription
services.  `end_date` is nullable. -/
structure Subscription where
  id : Nat
  status : String
  end_date : Option Nat
  tariff : Option Tariff
deriving DecidableEq, Repr

/-- Subscription.is_active property (app/database/models.py):
status == 'active' and end_date is not None and end_date > now. -/
def Subscription.is_active (s : Subscription) (now : Nat) : Bool :=
  s.status == "active" &&
    (match s.end_date with
     | some e => decide (now < e)
     | none => false)

/-- User row: the fields read by the family coordinator. -/
structure User where
  id : Nat
  username : Option String
  telegram_id : Option Nat
  subscription : Option Subscription
  remnawave_uuid : Option String
deriving DecidableEq, Repr

/-- FamilyGroup row (app/database/models.py). -/
structure FamilyGroup where
  id : Nat
  owner_user_id : Nat
  subscription_id : Nat
deriving DecidableEq, Repr

/-- FamilyMember row (app/database/models.py).  The surrogate primary key is
not modelled; rows are identified positionally, and the unique
(family_group_id, user_id) constraint is stated as a theorem hypothesis where
needed. -/
structure FamilyMember where
  family_group_id : Nat
  user_id : Nat
  role : String
  status : String
  invited_by_user_id : Option Nat
  invited_at : Nat
  accepted_at : Option Nat
  removed_at : Option Nat
deriving DecidableEq, Repr

/-- FamilyInvite row (app/database/models.py). -/
structure FamilyInvite where
  id : Nat
  family_group_id : Nat
  invitee_user_id : Nat
  inviter_user_id : Nat
  status : String
  created_at : Nat
  decided_at : Option Nat
  expires_at : Option Nat
deriving DecidableEq, Repr

/-- FamilyDevice row (app/database/models.py).  `created_at` and `last_seen_at`
default to now on insert. -/
structure FamilyDevice where
  family_group_id : Nat
  hwid : String
  owner_user_id : Nat
  platform : String
  device_model : String
  created_at : Nat
  last_seen_at : Nat
deriving DecidableEq, Repr

/-- The relational store visible to the coordinator.  `nextGroupId` and
`nextInviteId` model the autoincrement primary keys of the two tables whose
generated ids the code reads back. -/
structure DB where
  users : List User
  groups : List FamilyGroup
  members : List FamilyMember
  invites : List FamilyInvite
  devices : List FamilyDevice
  nextGroupId : Nat
  nextInviteId : Nat
deriving DecidableEq, Repr

/-- Replace the first element satisfying `p` by its image under `f`; models an
in-place UPDATE of the single row returned by `.first()`. -/
def updateFirst (p : α → Bool) (f : α → α) : List α → List α
  | [] => []
  | x :: xs => if p x then f x :: xs else x :: updateFirst p f xs

/-- HTTP-level errors raised by the service (fastapi.HTTPException), plus an
uncaught database error propagating out of a commit. -/
inductive ApiError where
  | http (code : Nat) (detail : String)
  | integrity (msg : String)
deriving DecidableEq, Repr

/-- Result of one coordinator operation: the committed post-state together with
either the returned value or the error the surrounding request reports.  For
errors raised before any commit the carried state is the unchanged input state
(the request wrapper rolls the transaction back); the expired-invite path of
accept commits before raising and therefore carries a changed state. -/
inductive OpResult (α : Type) where
  | ok (db : DB) (val : α)
  | err (db : DB) (e : ApiError)
deriving DecidableEq, Repr

/-- The committed state after an operation, successful or not. -/
def OpResult.state : OpResult α → DB
  | .ok db _ => db
  | .err db _ => db

/-- Python str.strip(): drop leading and trailing whitespace.  Stated over the
character list so that concrete runs reduce inside the kernel. -/
def pyStrip (s : String) : String :=
  ⟨((s.data.dropWhile Char.isWhitespace).reverse.dropWhile Char.isWhitespace).reverse⟩

/-- Python str.lower() (ASCII usernames; matches func.lower of the query). -/
def pyLower (s : String) : String :=
  ⟨s.data.map Char.toLower⟩

/-- Python value.startswith('@'). -/
def startsWithAt (s : String) : Bool :=
  match s.data with
  | c :: _ => c == '@'
  | [] => false

/-- Python value[1:]. -/
def dropFirstChar (s : String) : String :=
  ⟨s.data.drop 1⟩

/-- normalize_tg_username from app/services/family_service.py. -/
def normalize_tg_username (raw : String) : String :=
  let value := pyStrip raw
  let value := if startsWithAt value then dropFirstChar value else value
  pyStrip (pyLower value)

/-- The user-loading query `_load_user` (also `_load_user_with_subscription` in
effective_subscription_service.py; both select a User by id with the
subscription and tariff relations eagerly loaded). -/
def _load_user (db : DB) (user_id : Nat) : Option User :=
  db.users.find? (fun u => u.id == user_id)

/-- `_owner_group`: the FamilyGroup owned by a user (owner_user_id is unique). -/
def _owner_group (db : DB) (owner_user_id : Nat) : Option FamilyGroup :=
  db.groups.find? (fun g => g.owner_user_id == owner_user_id)

/-- `_active_membership`: an active FamilyMember row of the user. -/
def _active_membership (db : DB) (user_id : Nat) : Option FamilyMember :=
  db.members.find? (fun m => m.user_id == user_id && m.status == "active")

/-- Count of active members of a group, over a member list. -/
def activeCountL (ms : List FamilyMember) (group_id : Nat) : Nat :=
  (ms.filter (fun m => m.family_group_id == group_id && m.status == "active")).length

/-- `_active_member_count`: count of FamilyMember rows of the group with
status 'active'. -/
def _active_member_count (db : DB) (group_id : Nat) : Nat :=
  activeCountL db.members group_id

/-- `_in_active_family`: the user holds an active membership in some group other
than `exclude_group_id`, or owns a group other than `exclude_group_id`. -/
def _in_active_family (db : DB) (user_id : Nat) (exclude_group_id : Option Nat) : Bool :=
  (db.members.any (fun m =>
    m.user_id == user_id && m.status == "active" &&
      (match exclude_group_id with
       | some g => m.family_group_id != g
       | none => true))) ||
  (db.groups.any (fun g =>
    g.owner_user_id == user_id &&
      (match exclude_group_id with
       | some gid => g.id != gid
       | none => true)))

/-- FamilyAccessContext (app/services/family_service.py); role is the
loosely-typed string of the source: some "owner", some "member", or none. -/
structure FamilyAccessContext where
  requester : User
  owner : Option User
  subscription : Option Subscription
  tariff : Option Tariff
  group : Option FamilyGroup
  role : Option String
deriving DecidableEq, Repr

/-- get_access_context from app/services/family_service.py.  The inner
group lookup models `membership.family_group` (a non-null foreign key); the
fallback branch for a missing group is unreachable in states satisfying
referential integrity. -/
def get_access_context (db : DB) (user : User) : FamilyAccessContext :=
  match _load_user db user.id with
  | none => ⟨user, none, none, none, none, none⟩
  | some requester =>
    match _active_membership db requester.id with
    | some membership =>
      (match db.groups.find? (fun g => g.id == membership.family_group_id) with
       | some grp =>
         let owner := _load_user db grp.owner_user_id
         ⟨requester, owner, owner.bind User.subscription,
           (owner.bind User.subscription).bind Subscription.tariff, some grp, some "member"⟩
       | none => ⟨requester, none, none, none, none, none⟩)
    | none =>
      match _owner_group db requester.id with
      | some group =>
        ⟨requester, some requester, requester.subscription,
          requester.subscription.bind Subscription.tariff, some group, some "owner"⟩
      | none =>
        match requester.subscription with
        | some sub => ⟨requester, some requester, some sub, sub.tariff, none, some "owner"⟩
        | none => ⟨requester, none, none, none, none, none⟩

/-- _validate_owner_family_enabled: rejects a missing subscription or tariff,
and a tariff with family disabled or family_max_members <= 1; returns
family_max_members otherwise. -/
def _validate_owner_family_enabled : Option Subscription → Option Tariff → Except ApiError Int
  | some _, some tariff =>
    if !tariff.family_enabled || tariff.family_max_members ≤ 1 then
      .error (.http 400 "Family access is not available for your tariff")
    else
      .ok tariff.family_max_members
  | _, _ => .error (.http 400 "No active subscription with tariff")

/-- The capacity check used at invite-issue and invite-accept time
(`1 + await _active_member_count(db, group.id) >= max_members`). -/
def capacityReject (active_count : Nat) (max_members : Int) : Bool :=
  decide ((1 : Int) + active_count ≥ max_members)

/-- _ensure_group: return the owner's group, re-binding its subscription_id if
the owner's subscription changed; create the group lazily otherwise. -/
def _ensure_group (db : DB) (owner : User) (subscription : Subscription) : DB × FamilyGroup :=
  match _owner_group db owner.id with
  | some group =>
    if group.subscription_id != subscription.id then
      ({ db with groups := (updateFirst (fun g => g.owner_user_id == owner.id)
          (fun g => { g with subscription_id := subscription.id }) db.groups) },
       { group with subscription_id := subscription.id })
    else
      (db, group)
  | none =>
    let group : FamilyGroup := ⟨db.nextGroupId, owner.id, subscription.id⟩
    ({ db with groups := db.groups ++ [group], nextGroupId := db.nextGroupId + 1 }, group)

/-- Number of seconds in the 7-day invite expiry window
(`timedelta(days=7)`). -/
def sevenDays : Nat := 604800

/-- create_family_invite from app/services/family_service.py.  `owner_user` is
the authenticated caller; `now` is the current time.  Error results carry the
unchanged input state: every error is raised before the single commit, so the
request wrapper rolls the transaction back.  The notification fan-out after the
commit does not touch family state and is not modelled. -/
def create_family_invite (db : DB) (now : Nat) (owner_user : User) (tg_username : String) :
    OpResult FamilyInvite :=
  match _load_user db owner_user.id with
  | none => .err db (.http 404 "User not found")
  | some owner =>
    match _validate_owner_family_enabled owner.subscription
        (owner.subscription.bind Subscription.tariff) with
    | .error e => .err db e
    | .ok max_members =>
      let normalized := normalize_tg_username tg_username
      if normalized == "" then .err db (.http 400 "Invalid Telegram username")
      else
        match db.users.find? (fun u =>
            match u.username with
            | some name => pyLower name == normalized
            | none => false) with
        | none => .err db (.http 400 "User must start the bot first")
        | some invitee =>
          if invitee.telegram_id.isNone then .err db (.http 400 "User must start the bot first")
          else if invitee.id == owner.id then .err db (.http 400 "You cannot invite yourself")
          else if (match invitee.subscription with
                   | some s => s.is_active now
                   | none => false) then
            -- the source raises a 409 whose detail dict has this error_code
            .err db (.http 409 "INVITEE_HAS_ACTIVE_SUBSCRIPTION")
          else if _in_active_family db invitee.id none then
            .err db (.http 400 "User is already in another family")
          else
            match owner.subscription with
            | none =>
              -- unreachable: _validate_owner_family_enabled succeeded above
              .err db (.http 400 "No active subscription with tariff")
            | some sub =>
              let ensured := _ensure_group db owner sub
              let db1 := ensured.1
              let group := ensured.2
              if capacityReject (_active_member_count db1 group.id) max_members then
                .err db (.http 400 "Family member limit reached")
              else if (db1.invites.find? (fun i =>
                  i.family_group_id == group.id && i.invitee_user_id == invitee.id &&
                    i.status == "pending")).isSome then
                .err db (.http 400 "Invite already pending")
              else
                let invite : FamilyInvite :=
                  ⟨db1.nextInviteId, group.id, invitee.id, owner.id, "pending", now, none,
                    some (now + sevenDays)⟩
                let db2 := { db1 with
                  invites := db1.invites ++ [invite],
                  nextInviteId := db1.nextInviteId + 1 }
                let db3 :=
                  match db2.members.find? (fun m =>
                      m.family_group_id == group.id && m.user_id == invitee.id) with
                  | none =>
                    { db2 with members := db2.members ++
                        [⟨group.id, invitee.id, "member", "invited", some owner.id, now, none, none⟩] }
                  | some _ =>
                    { db2 with members := (updateFirst (fun m =>
                        m.family_group_id == group.id && m.user_id == invitee.id)
                        (fun m => { m with
                          status := "invited", role := "member",
                          invited_by_user_id := some owner.id, invited_at := now,
                          removed_at := none }) db2.members) }
                .ok db3 invite

/-- `_invite_for_update`: select the invite row by id with a row lock. -/
def _invite_for_update (db : DB) (invite_id : Nat) : Option FamilyInvite :=
  db.invites.find? (fun i => i.id == invite_id)

/-- accept_family_invite from app/services/family_service.py.  `commitRaises`
models the database rejecting the final commit with a unique-constraint
IntegrityError (a concurrent duplicate acceptance); the source has no handler
around `db.commit()`, so in that case the error propagates and nothing is
committed.  The expired-invite branch commits its own change before raising.
The post-commit best-effort device sync and notifications are external
side effects (the sync is modelled separately as
sync_family_devices_from_panel). -/
def accept_family_invite (db : DB) (now : Nat) (user : User) (invite_id : Nat)
    (commitRaises : Bool) : OpResult FamilyInvite :=
  match _invite_for_update db invite_id with
  | none => .err db (.http 404 "Invite not found")
  | some invite =>
    if invite.invitee_user_id != user.id then .err db (.http 404 "Invite not found")
    else if invite.status != "pending" then .err db (.http 400 "Invite is not pending")
    else if (match invite.expires_at with
             | some e => decide (e ≤ now)
             | none => false) then
      let db1 := { db with invites := (updateFirst (fun i => i.id == invite_id)
        (fun i => { i with status := "expired", decided_at := some now }) db.invites) }
      .err db1 (.http 400 "Invite expired")
    else
      match db.groups.find? (fun g => g.id == invite.family_group_id) with
      | none =>
        -- group is None, so owner is None and the validation below raises
        .err db (.http 400 "No active subscription with tariff")
      | some group =>
        let owner := _load_user db group.owner_user_id
        match _validate_owner_family_enabled (owner.bind User.subscription)
            ((owner.bind User.subscription).bind Subscription.tariff) with
        | .error e => .err db e
        | .ok max_members =>
          if _in_active_family db user.id (some group.id) then
            .err db (.http 400 "User is already in another family")
          else if capacityReject (_active_member_count db group.id) max_members then
            .err db (.http 400 "Family member limit reached")
          else
            let db1 := { db with invites := (updateFirst (fun i => i.id == invite_id)
              (fun i => { i with status := "accepted", decided_at := some now }) db.invites) }
            let db2 :=
              match db1.members.find? (fun m =>
                  m.family_group_id == group.id && m.user_id == user.id) with
              | none =>
                { db1 with members := db1.members ++
                    [⟨group.id, user.id, "member", "active", some invite.inviter_user_id,
                      invite.created_at, some now, none⟩] }
              | some _ =>
                { db1 with members := (updateFirst (fun m =>
                    m.family_group_id == group.id && m.user_id == user.id)
                    (fun m => { m with
                      status := "active", accepted_at := some now,
                      removed_at := none }) db1.members) }
            if commitRaises then .err db (.integrity "IntegrityError")
            else .ok db2 { invite with status := "accepted", decided_at := some now }

/-- decline_family_invite from app/services/family_service.py.  The member-row
update is a no-op when no (group, user) member row exists, matching the
`if member:` guard of the source. -/
def decline_family_invite (db : DB) (now : Nat) (user : User) (invite_id : Nat) :
    OpResult FamilyInvite :=
  match _invite_for_update db invite_id with
  | none => .err db (.http 404 "Invite not found")
  | some invite =>
    if invite.invitee_user_id != user.id then .err db (.http 404 "Invite not found")
    else if invite.status != "pending" then .err db (.http 400 "Invite is not pending")
    else
      let db1 := { db with invites := (updateFirst (fun i => i.id == invite_id)
        (fun i => { i with status := "declined", decided_at := some now }) db.invites) }
      let db2 := { db1 with members := (updateFirst (fun m =>
        m.family_group_id == invite.family_group_id && m.user_id == user.id)
        (fun m => { m with status := "declined", removed_at := some now }) db1.members) }
      .ok db2 { invite with status := "declined", decided_at := some now }

/-- revoke_family_invite from app/services/family_service.py. -/
def revoke_family_invite (db : DB) (now : Nat) (owner_user : User) (invite_id : Nat) :
    OpResult FamilyInvite :=
  let ctx := get_access_context db owner_user
  if ctx.role != some "owner" then .err db (.http 403 "Only owner can revoke invites")
  else
    match ctx.group with
    | none => .err db (.http 403 "Only owner can revoke invites")
    | some group =>
      match _invite_for_update db invite_id with
      | none => .err db (.http 404 "Invite not found")
      | some invite =>
        if invite.family_group_id != group.id then .err db (.http 404 "Invite not found")
        else if invite.status != "pending" then .err db (.http 400 "Invite is not pending")
        else
          let db1 := { db with invites := (updateFirst (fun i => i.id == invite_id)
            (fun i => { i with status := "revoked", decided_at := some now }) db.invites) }
          .ok db1 { invite with status := "revoked", decided_at := some now }

/-- `_remove_member_devices`: delete the member's device rows of the group
locally; per-hwid remote panel deletes are best-effort and external.  Returns
the new state and the remote delete calls issued (owner uuid, hwid). -/
def _remove_member_devices (db : DB) (group_id : Nat) (member_user_id : Nat)
    (owner_uuid : Option String) : DB × List (String × String) :=
  let rows := db.devices.filter (fun d =>
    d.family_group_id == group_id && d.owner_user_id == member_user_id)
  let calls := match owner_uuid with
    | some uuid => rows.map (fun r => (uuid, r.hwid))
    | none => []
  ({ db with devices := db.devices.filter (fun d =>
      !(d.family_group_id == group_id && d.owner_user_id == member_user_id)) }, calls)

/-- remove_family_member from app/services/family_service.py. -/
def remove_family_member (db : DB) (now : Nat) (owner_user : User) (member_user_id : Nat) :
    OpResult Unit :=
  let ctx := get_access_context db owner_user
  match ctx.group, ctx.owner with
  | some group, some owner =>
    if ctx.role != some "owner" then .err db (.http 403 "Only owner can remove members")
    else if member_user_id == owner.id then
      .err db (.http 400 "Owner cannot remove themselves")
    else
      match db.members.find? (fun m =>
          m.family_group_id == group.id && m.user_id == member_user_id &&
            m.status == "active") with
      | none => .err db (.http 404 "Active family member not found")
      | some _ =>
        let db1 := { db with members := (updateFirst (fun m =>
          m.family_group_id == group.id && m.user_id == member_user_id &&
            m.status == "active")
          (fun m => { m with status := "removed", removed_at := some now }) db.members) }
        let db2 := (_remove_member_devices db1 group.id member_user_id owner.remnawave_uuid).1
        .ok db2 ()
  | _, _ => .err db (.http 403 "Only owner can remove members")

/-- leave_family from app/services/family_service.py. -/
def leave_family (db : DB) (now : Nat) (user : User) : OpResult Unit :=
  let ctx := get_access_context db user
  match ctx.group, ctx.owner with
  | some group, some owner =>
    if ctx.role != some "member" then
      .err db (.http 400 "User is not an active family member")
    else
      match db.members.find? (fun m =>
          m.family_group_id == group.id && m.user_id == user.id && m.status == "active") with
      | none => .err db (.http 404 "Active family membership not found")
      | some _ =>
        let db1 := { db with members := (updateFirst (fun m =>
          m.family_group_id == group.id && m.user_id == user.id && m.status == "active")
          (fun m => { m with status := "left", removed_at := some now }) db.members) }
        let db2 := (_remove_member_devices db1 group.id user.id owner.remnawave_uuid).1
        .ok db2 ()
  | _, _ => .err db (.http 400 "User is not an active family member")

/-- The scalar fields of the overview payload referenced by the claims; the
member / invite / device listings of the source are read-only projections and
are not reproduced here. -/
structure FamilyOverview where
  family_enabled : Bool
  role : Option String
  family_group_id : Option Nat
  max_members_including_owner : Int
  used_slots : Nat
  remaining_slots : Int
  can_invite : Bool
deriving DecidableEq, Repr

/-- get_family_overview from app/services/family_service.py, reduced to its
state effect (the lazy group materialisation followed by a commit) and the
scalar overview fields. -/
def get_family_overview (db : DB) (user : User) : DB × FamilyOverview :=
  let ctx := get_access_context db user
  match ctx.owner, ctx.subscription with
  | some owner, some sub =>
    let family_enabled :=
      match ctx.tariff with
      | some t => t.family_enabled && decide (t.family_max_members > 1)
      | none => false
    let max_members : Int :=
      match ctx.tariff with
      | some t => t.family_max_members
      | none => 0
    let materialized :=
      match ctx.group with
      | some g => (db, some g)
      | none =>
        if ctx.role == some "owner" && family_enabled then
          let ensured := _ensure_group db owner sub
          (ensured.1, some ensured.2)
        else (db, none)
    let db1 := materialized.1
    match materialized.2 with
    | none =>
      (db1, ⟨family_enabled, ctx.role, none, max_members, 1, max 0 (max_members - 1),
        ctx.role == some "owner" && family_enabled⟩)
    | some group =>
      let used_slots := 1 + _active_member_count db1 group.id
      (db1, ⟨family_enabled, ctx.role, some group.id, max_members, used_slots,
        max 0 (max_members - used_slots),
        ctx.role == some "owner" && family_enabled && decide ((used_slots : Int) < max_members)⟩)
  | _, _ => (db, ⟨false, none, none, 0, 0, 0, false⟩)

/-- One entry of the panel device list consumed by
sync_family_devices_from_panel: a dict whose relevant keys may each be absent
or empty. -/
structure PanelDevice where
  hwid : Option String
  deviceId : Option String
  id : Option String
  platform : Option String
  platformType : Option String
  deviceModel : Option String
  model : Option String
  name : Option String
deriving DecidableEq, Repr

/-- Python `x or y` on an optional string: None and the empty string are
falsy. -/
def pyStrOr (x : Option String) (dflt : String) : String :=
  match x with
  | some s => if s == "" then dflt else s
  | none => dflt

/-- The hwid extraction of the sync loop:
`(item.get('hwid') or item.get('deviceId') or item.get('id') or '').strip()`. -/
def panelHwid (item : PanelDevice) : String :=
  pyStrip (pyStrOr item.hwid (pyStrOr item.deviceId (pyStrOr item.id "")))

/-- `item.get('platform') or item.get('platformType') or 'Unknown'`. -/
def panelPlatform (item : PanelDevice) : String :=
  pyStrOr item.platform (pyStrOr item.platformType "Unknown")

/-- `item.get('deviceModel') or item.get('model') or item.get('name') or 'Unknown'`. -/
def panelModel (item : PanelDevice) : String :=
  pyStrOr item.deviceModel (pyStrOr item.model (pyStrOr item.name "Unknown"))

/-- The id set a newly seen device may be attributed to:
`active_ids = {actor_user_id}` seeded first, then the group's active member
ids added. -/
def syncActiveIds (db : DB) (family_group_id : Nat) (actor_user_id : Nat) : List Nat :=
  actor_user_id ::
    (db.members.filter (fun m =>
      m.family_group_id == family_group_id && m.status == "active")).map FamilyMember.user_id

/-- Python `min` over the (nonempty in every reachable call) active-id set. -/
def minNat : List Nat → Nat
  | [] => 0
  | x :: xs => xs.foldl Nat.min x

/-- Accumulator of the sync loop: the device table, the `current` hwid set, and
the rows passed to `db.add` so far. -/
structure SyncState where
  devices : List FamilyDevice
  current : List String
  insertedRows : List FamilyDevice
deriving DecidableEq, Repr

/-- One iteration of the `for item in panel_devices` loop of
sync_family_devices_from_panel.  The dict `by_hwid` of the source holds the
group's rows keyed by hwid; under the uq_family_devices_group_hwid constraint
that is exactly a lookup of the group's row by hwid, modelled by `find?` with
the group predicate. -/
def syncOne (family_group_id : Nat) (actor_user_id : Nat) (now : Nat)
    (activeIds : List Nat) (st : SyncState) (item : PanelDevice) : SyncState :=
  let hwid := panelHwid item
  if hwid == "" then st
  else
    let current := st.current ++ [hwid]
    let platform := panelPlatform item
    let model := panelModel item
    if (st.devices.find? (fun d =>
        d.family_group_id == family_group_id && d.hwid == hwid)).isSome then
      { devices := (updateFirst (fun d =>
          d.family_group_id == family_group_id && d.hwid == hwid)
          (fun d => { d with
            platform := platform, device_model := model,
            last_seen_at := now }) st.devices),
        current := current, insertedRows := st.insertedRows }
    else
      let owner := if activeIds.contains actor_user_id then actor_user_id
        else minNat activeIds
      let row : FamilyDevice := ⟨family_group_id, hwid, owner, platform, model, now, now⟩
      { devices := st.devices ++ [row], current := current,
        insertedRows := st.insertedRows ++ [row] }

/-- Result of a sync run: the committed state, the rows inserted and the rows
deleted by this run. -/
structure SyncOutcome where
  db : DB
  insertedRows : List FamilyDevice
  deletedRows : List FamilyDevice
deriving DecidableEq, Repr

/-- sync_family_devices_from_panel from app/services/family_service.py: full
reconciliation of the group's FamilyDevice rows against the panel's device
list, committing at the end. -/
def sync_family_devices_from_panel (db : DB) (now : Nat) (family_group_id : Nat)
    (actor_user_id : Nat) (panel_devices : List PanelDevice) : SyncOutcome :=
  let activeIds := syncActiveIds db family_group_id actor_user_id
  let st := panel_devices.foldl (syncOne family_group_id actor_user_id now activeIds)
    ⟨db.devices, [], []⟩
  let deleted := st.devices.filter (fun d =>
    d.family_group_id == family_group_id && !st.current.contains d.hwid)
  let kept := st.devices.filter (fun d =>
    !(d.family_group_id == family_group_id && !st.current.contains d.hwid))
  ⟨{ db with devices := kept }, st.insertedRows, deleted⟩

/-- Modelled from the spec: the caller-facing device deletion operation
(`delete_device` in app/cabinet/routes/subscription.py) is not included under
src — only its tests are.  Spec section 4.4: deletion authorization is enforced
by the caller-facing operation; an owner may delete any member's device while a
member may delete only their own device, never the owner's
(ForbiddenDeviceDelete, HTTP 403, if violated); a successful deletion issues a
best-effort remote panel delete call for the hwid and removes the local record.
Returns the remote delete calls (owner uuid, hwid) issued. -/
def delete_device (db : DB) (user : User) (hwid : String) :
    OpResult (List (String × String)) :=
  let ctx := get_access_context db user
  match ctx.group, ctx.owner with
  | some group, some owner =>
    match db.devices.find? (fun d =>
        d.family_group_id == group.id && d.hwid == hwid) with
    | none => .err db (.http 404 "Device not found")
    | some device =>
      if ctx.role == some "member" && device.owner_user_id != ctx.requester.id then
        .err db (.http 403 "Family member cannot delete owner devices")
      else
        let calls := match owner.remnawave_uuid with
          | some uuid => [(uuid, device.hwid)]
          | none => []
        .ok { db with devices := db.devices.filter (fun d =>
          !(d.family_group_id == group.id && d.hwid == hwid)) } calls
  | _, _ => .err db (.http 404 "Device not found")

/-- Modelled from the spec: is_subscription_active from
app/utils/subscription_utils.py is not included under src.  The spec defines
subscription activity as status == active and end_date > now, which coincides
with the Subscription.is_active property of app/database/models.py. -/
def is_subscription_active (s : Option Subscription) (now : Nat) : Bool :=
  match s with
  | some sub => sub.is_active now
  | none => false

/-- EffectiveSubscriptionResult from
app/services/effective_subscription_service.py. -/
structure EffectiveSubscriptionResult where
  active : Bool
  source : Option String
  subscription : Option Subscription
  tariff : Option Tariff
  owner_user : Option User
  requester_user : Option User
deriving DecidableEq, Repr

/-- resolve_effective_subscription from
app/services/effective_subscription_service.py. -/
def resolve_effective_subscription (db : DB) (now : Nat) (user : User) :
    EffectiveSubscriptionResult :=
  match _load_user db user.id with
  | none => ⟨false, none, none, none, none, none⟩
  | some requester =>
    let personal := requester.subscription
    if is_subscription_active personal now then
      ⟨true, some "personal", personal, personal.bind Subscription.tariff,
        some requester, some requester⟩
    else
      let ctx := get_access_context db requester
      if ctx.role == some "member" && ctx.owner.isSome && ctx.subscription.isSome &&
          is_subscription_active ctx.subscription now then
        ⟨true, some "family_owner", ctx.subscription, ctx.tariff, ctx.owner, some requester⟩
      else
        ⟨false, none, personal, personal.bind Subscription.tariff, none, some requester⟩

/-- The six mutating coordinator operations of the membership state machine. -/
inductive FamilyOp where
  | invite (owner_user : User) (tg_username : String)
  | accept (user : User) (invite_id : Nat) (commitRaises : Bool)
  | decline (user : User) (invite_id : Nat)
  | revoke (owner_user : User) (invite_id : Nat)
  | removeMember (owner_user : User) (member_user_id : Nat)
  | leave (user : User)
deriving DecidableEq, Repr

/-- The committed state after running one coordinator operation. -/
def runOp (db : DB) (now : Nat) : FamilyOp → DB
  | .invite o t => (create_family_invite db now o t).state
  | .accept u i c => (accept_family_invite db now u i c).state
  | .decline u i => (decline_family_invite db now u i).state
  | .revoke o i => (revoke_family_invite db now o i).state
  | .removeMember o m => (remove_family_member db now o m).state
  | .leave u => (leave_family db now u).state

/-- The owner's tariff capacity for a group, read the way the code reads it:
load the owner row, follow subscription then tariff. -/
def ownersMax (db : DB) (g : FamilyGroup) : Option Int :=
  ((_load_user db g.owner_user_id).bind User.subscription).bind
    (fun s => s.tariff.map Tariff.family_max_members)

/-- One group's capacity invariant: owner slot plus active members within the
owner's tariff limit (vacuous when the owner has no tariff). -/
def groupWithinCap (db : DB) (g : FamilyGroup) : Bool :=
  (ownersMax db g).all (fun m => decide ((1 : Int) + (_active_member_count db g.id : Int) ≤ m))

/-- The capacity invariant over all groups. -/
def capInv (db : DB) : Prop :=
  ∀ g ∈ db.groups, groupWithinCap db g = true

instance : DecidablePred capInv := fun db =>
  List.decidableBAll (fun g => groupWithinCap db g = true) db.groups

/-- Structural well-formedness used by the invariant proofs: group primary keys
are below the autoincrement counter and pairwise distinct, and member rows
reference only allocated group ids. -/
def dbWf (db : DB) : Prop :=
  (∀ g ∈ db.groups, g.id < db.nextGroupId) ∧
  (∀ m ∈ db.members, m.family_group_id < db.nextGroupId) ∧
  (db.groups.map FamilyGroup.id).Nodup

instance : DecidablePred dbWf := fun _ => by unfold dbWf; infer_instance

/-- The member rows of one (group, user) pair. -/
def memberRowsL (ms : List FamilyMember) (gid uid : Nat) : List FamilyMember :=
  ms.filter (fun m => m.family_group_id == gid && m.user_id == uid)

/-- The uq_family_members_group_user constraint: (group_id, user_id) keys of
the member table are pairwise distinct. -/
def memberKeysNodup (db : DB) : Prop :=
  (db.members.map (fun m => (m.family_group_id, m.user_id))).Nodup

instance : DecidablePred memberKeysNodup := fun _ => by unfold memberKeysNodup; infer_instance

/-- The hwid-to-owning-user mapping of one group's device registry. -/
def groupDeviceMap (ds : List FamilyDevice) (gid : Nat) : List (String × Nat) :=
  (ds.filter (fun d => d.family_group_id == gid)).map (fun d => (d.hwid, d.owner_user_id))

/-! Generic lemmas about `updateFirst` and row counting. -/

theorem mem_updateFirst {p : α → Bool} {f : α → α} {l : List α} {y : α} :
    y ∈ updateFirst p f l → y ∈ l ∨ ∃ x ∈ l, y = f x := by
  induction l with
  | nil => intro hy; simp [updateFirst] at hy
  | cons x xs ih =>
    intro hy
    by_cases hx : p x
    · simp only [updateFirst, if_pos hx, List.mem_cons] at hy
      rcases hy with hy | hy
      · exact Or.inr ⟨x, List.mem_cons_self x xs, hy⟩
      · exact Or.inl (List.mem_cons_of_mem x hy)
    · simp only [updateFirst, if_neg hx, List.mem_cons] at hy
      rcases hy with hy | hy
      · exact Or.inl (hy ▸ List.mem_cons_self x xs)
      · rcases ih hy with h | ⟨z, hz, hzy⟩
        · exact Or.inl (List.mem_cons_of_mem x h)
        · exact Or.inr ⟨z, List.mem_cons_of_mem x hz, hzy⟩

theorem length_updateFirst (p : α → Bool) (f : α → α) (l : List α) :
    (updateFirst p f l).length = l.length := by
  induction l with
  | nil => rfl
  | cons x xs ih =>
    by_cases hx : p x
    · simp [updateFirst, if_pos hx]
    · simp [updateFirst, if_neg hx, ih]

theorem countP_updateFirst_le {p : α → Bool} {f : α → α} {C : α → Bool}
    (h : ∀ x, C (f x) = true → C x = true) (l : List α) :
    (updateFirst p f l).countP C ≤ l.countP C := by
  induction l with
  | nil => simp [updateFirst]
  | cons x xs ih =>
    by_cases hx : p x
    · simp only [updateFirst, if_pos hx, List.countP_cons]
      have : (if C (f x) = true then 1 else 0) ≤ (if C x = true then 1 else 0) := by
        by_cases hc : C (f x) = true
        · simp [hc, h x hc]
        · simp [hc]
      omega
    · simp only [updateFirst, if_neg hx, List.countP_cons]
      omega

theorem countP_updateFirst_le_succ {p : α → Bool} {f : α → α} (C : α → Bool) (l : List α) :
    (updateFirst p f l).countP C ≤ l.countP C + 1 := by
  induction l with
  | nil => simp [updateFirst]
  | cons x xs ih =>
    by_cases hx : p x
    · simp only [updateFirst, if_pos hx, List.countP_cons]
      have h1 : (if C (f x) = true then 1 else 0) ≤ 1 := by split <;> omega
      omega
    · simp only [updateFirst, if_neg hx, List.countP_cons]
      omega

theorem countP_updateFirst_eq {p : α → Bool} {f : α → α} {C : α → Bool}
    (h : ∀ x, p x = true → C (f x) = C x) (l : List α) :
    (updateFirst p f l).countP C = l.countP C := by
  induction l with
  | nil => simp [updateFirst]
  | cons x xs ih =>
    by_cases hx : p x
    · simp only [updateFirst, if_pos hx, List.countP_cons, h x hx]
    · simp only [updateFirst, if_neg hx, List.countP_cons, ih]

theorem map_updateFirst_eq {p : α → Bool} {f : α → α} {g : α → β}
    (h : ∀ x, g (f x) = g x) (l : List α) :
    (updateFirst p f l).map g = l.map g := by
  induction l with
  | nil => simp [updateFirst]
  | cons x xs ih =>
    by_cases hx : p x
    · simp [updateFirst, if_pos hx, h x]
    · simp [updateFirst, if_neg hx, ih]

theorem find?_updateFirst (p : α → Bool) (f : α → α)
    (h : ∀ x, p (f x) = p x) (l : List α) :
    (updateFirst p f l).find? p = (l.find? p).map f := by
  induction l with
  | nil => simp [updateFirst]
  | cons x xs ih =>
    by_cases hx : p x
    · simp [updateFirst, if_pos hx, List.find?_cons, h x, hx]
    · simp [updateFirst, if_neg hx, List.find?_cons, hx, ih]

theorem countP_eq_zero_of_forall {C : α → Bool} {l : List α}
    (h : ∀ x ∈ l, C x = false) : l.countP C = 0 := by
  induction l with
  | nil => simp
  | cons x xs ih =>
    simp only [List.countP_cons, h x (List.mem_cons_self x xs)]
    simpa using ih (fun y hy => h y (List.mem_cons_of_mem x hy))

/-! Counting active members. -/

theorem activeCountL_eq_countP (ms : List FamilyMember) (gid : Nat) :
    activeCountL ms gid =
      ms.countP (fun m => m.family_group_id == gid && m.status == "active") := by
  simp [activeCountL, List.countP_eq_length_filter]

theorem activeCountL_append (ms : List FamilyMember) (m : FamilyMember) (gid : Nat) :
    activeCountL (ms ++ [m]) gid =
      activeCountL ms gid +
        (if m.family_group_id == gid && m.status == "active" then 1 else 0) := by
  simp [activeCountL_eq_countP, List.countP_append, List.countP_cons]

theorem activeCountL_append_other (ms : List FamilyMember) (m : FamilyMember)
    (gid : Nat) (h : m.family_group_id ≠ gid) :
    activeCountL (ms ++ [m]) gid = activeCountL ms gid := by
  rw [activeCountL_append]
  have hb : (m.family_group_id == gid) = false := by simpa using h
  simp [hb]

theorem activeCountL_append_not_active (ms : List FamilyMember) (m : FamilyMember)
    (gid : Nat) (h : m.status ≠ "active") :
    activeCountL (ms ++ [m]) gid = activeCountL ms gid := by
  rw [activeCountL_append]
  have : (m.status == "active") = false := by
    simpa using h
  simp [this]

theorem activeCountL_updateFirst_not_active
    {p2 : FamilyMember → Bool} {f : FamilyMember → FamilyMember}
    (hf : ∀ m, (f m).status ≠ "active") (ms : List FamilyMember) (gid : Nat) :
    activeCountL (updateFirst p2 f ms) gid ≤ activeCountL ms gid := by
  rw [activeCountL_eq_countP, activeCountL_eq_countP]
  refine countP_updateFirst_le (fun m hm => ?_) ms
  exfalso
  have := hf m
  simp only [Bool.and_eq_true, beq_iff_eq] at hm
  exact this hm.2

theorem activeCountL_updateFirst_le_succ {p2 : FamilyMember → Bool}
    {f : FamilyMember → FamilyMember} (ms : List FamilyMember) (gid : Nat) :
    activeCountL (updateFirst p2 f ms) gid ≤ activeCountL ms gid + 1 := by
  rw [activeCountL_eq_countP, activeCountL_eq_countP]
  exact countP_updateFirst_le_succ _ ms

theorem activeCountL_updateFirst_other {p2 : FamilyMember → Bool}
    {f : FamilyMember → FamilyMember} {gid1 : Nat}
    (hp : ∀ m, p2 m = true → m.family_group_id = gid1)
    (hf : ∀ m, (f m).family_group_id = m.family_group_id)
    (ms : List FamilyMember) (gid : Nat) (hne : gid ≠ gid1) :
    activeCountL (updateFirst p2 f ms) gid = activeCountL ms gid := by
  rw [activeCountL_eq_countP, activeCountL_eq_countP]
  refine countP_updateFirst_eq (fun m hm => ?_) ms
  have h1 : m.family_group_id = gid1 := hp m hm
  have h2 : (f m).family_group_id = gid1 := by rw [hf m, h1]
  have hb1 : (m.family_group_id == gid) = false := by
    simp [h1]; omega
  have hb2 : ((f m).family_group_id == gid) = false := by
    simp [h2]; omega
  simp [hb1, hb2]

/-! Capacity-invariant transfer lemmas. -/

theorem ownersMax_eq_of_users {db db2 : DB} (h : db2.users = db.users) (g : FamilyGroup) :
    ownersMax db2 g = ownersMax db g := by
  unfold ownersMax _load_user
  rw [h]

theorem ownersMax_eq_of_owner {db : DB} {g1 g2 : FamilyGroup}
    (h : g1.owner_user_id = g2.owner_user_id) : ownersMax db g1 = ownersMax db g2 := by
  unfold ownersMax _load_user
  rw [h]

theorem groupWithinCap_transfer {db db2 : DB} {g g2 : FamilyGroup}
    (hmax : ownersMax db2 g2 = ownersMax db g)
    (hcnt : _active_member_count db2 g2.id ≤ _active_member_count db g.id)
    (h : groupWithinCap db g = true) : groupWithinCap db2 g2 = true := by
  unfold groupWithinCap at h ⊢
  rw [hmax]
  match hm : ownersMax db g with
  | none => rfl
  | some m =>
    rw [hm] at h
    simp only [Option.all, decide_eq_true_eq] at h ⊢
    have : (_active_member_count db2 g2.id : Int) ≤ (_active_member_count db g.id : Int) := by
      exact_mod_cast hcnt
    omega

theorem capInv_of_le {db db2 : DB}
    (husers : db2.users = db.users)
    (hcorr : ∀ g2 ∈ db2.groups, ∃ g ∈ db.groups,
      g2.id = g.id ∧ g2.owner_user_id = g.owner_user_id)
    (hcnt : ∀ gid, activeCountL db2.members gid ≤ activeCountL db.members gid)
    (hinv : capInv db) : capInv db2 := by
  intro g2 hg2
  obtain ⟨g, hg, hid, howner⟩ := hcorr g2 hg2
  refine groupWithinCap_transfer ?_ ?_ (hinv g hg)
  · rw [ownersMax_eq_of_users husers, ownersMax_eq_of_owner howner]
  · show activeCountL db2.members g2.id ≤ activeCountL db.members g.id
    rw [hid]
    exact hcnt g.id

theorem ensure_group_users (db : DB) (o : User) (s : Subscription) :
    (_ensure_group db o s).1.users = db.users := by
  unfold _ensure_group
  split
  · split <;> rfl
  · rfl

theorem ensure_group_members (db : DB) (o : User) (s : Subscription) :
    (_ensure_group db o s).1.members = db.members := by
  unfold _ensure_group
  split
  · split <;> rfl
  · rfl

theorem ensure_group_invites (db : DB) (o : User) (s : Subscription) :
    (_ensure_group db o s).1.invites = db.invites := by
  unfold _ensure_group
  split
  · split <;> rfl
  · rfl

theorem ensure_group_devices (db : DB) (o : User) (s : Subscription) :
    (_ensure_group db o s).1.devices = db.devices := by
  unfold _ensure_group
  split
  · split <;> rfl
  · rfl

theorem validate_ok_inv {s : Option Subscription} {t? : Option Tariff} {max : Int}
    (h : _validate_owner_family_enabled s t? = .ok max) :
    ∃ sub tr, s = some sub ∧ t? = some tr ∧ tr.family_enabled = true ∧
      1 < tr.family_max_members ∧ max = tr.family_max_members := by
  unfold _validate_owner_family_enabled at h
  split at h
  · next sub tr =>
    split at h
    · exact absurd h (by simp)
    · next hguard =>
      simp only [Bool.or_eq_true, Bool.not_eq_true', decide_eq_true_eq, not_or] at hguard
      refine ⟨sub, tr, rfl, rfl, ?_, ?_, ?_⟩
      · simpa using hguard.1
      · have := hguard.2
        omega
      · cases h
        rfl
  · exact absurd h (by simp)

theorem load_user_id {db : DB} {uid : Nat} {u : User}
    (h : _load_user db uid = some u) : u.id = uid ∧ u ∈ db.users := by
  unfold _load_user at h
  have h1 := List.find?_some h
  have h2 := List.mem_of_find?_eq_some h
  simp only [beq_iff_eq] at h1
  exact ⟨h1, h2⟩

theorem active_count_zero_of_fresh {db : DB} (hwf : dbWf db) :
    activeCountL db.members db.nextGroupId = 0 := by
  rw [activeCountL_eq_countP]
  refine countP_eq_zero_of_forall (fun m hm => ?_)
  have := hwf.2.1 m hm
  have hb : (m.family_group_id == db.nextGroupId) = false := by
    simp only [beq_eq_false_iff_ne, ne_eq]
    omega
  simp [hb]

/-- Capacity is preserved by a state whose groups are the invite-time ensured
groups and whose member table did not gain any active row. -/
theorem capInv_invite_post {db db2 : DB} {owner : User} {sub : Subscription}
    (hwf : dbWf db) (hinv : capInv db)
    (hoid : _load_user db owner.id = some owner)
    (hownsub : owner.subscription = some sub)
    (htar : ∃ tr, sub.tariff = some tr ∧ 1 < tr.family_max_members)
    (husers : db2.users = db.users)
    (hgroups : db2.groups = (_ensure_group db owner sub).1.groups)
    (hcnt : ∀ gid, activeCountL db2.members gid ≤ activeCountL db.members gid) :
    capInv db2 := by
  intro g2 hg2
  rw [hgroups] at hg2
  have transfer : ∀ g ∈ db.groups, g2.id = g.id → g2.owner_user_id = g.owner_user_id →
      groupWithinCap db2 g2 = true := by
    intro g hg hid hown
    refine groupWithinCap_transfer ?_ ?_ (hinv g hg)
    · rw [ownersMax_eq_of_users husers, ownersMax_eq_of_owner hown]
    · show activeCountL db2.members g2.id ≤ activeCountL db.members g.id
      rw [hid]
      exact hcnt g.id
  unfold _ensure_group at hg2
  rcases howner : _owner_group db owner.id with _ | g0 <;> rw [howner] at hg2
  · -- fresh group appended
    simp only [List.mem_append, List.mem_singleton] at hg2
    rcases hg2 with hg2 | hg2
    · exact transfer g2 hg2 rfl rfl
    · subst hg2
      obtain ⟨tr, htr, htrmax⟩ := htar
      have homax : ownersMax db2 (⟨db.nextGroupId, owner.id, sub.id⟩ : FamilyGroup) =
          some tr.family_max_members := by
        unfold ownersMax _load_user
        dsimp only
        rw [husers]
        rw [show db.users.find? (fun u => u.id == owner.id) = some owner from hoid]
        simp [hownsub, htr]
      have hz : activeCountL db.members db.nextGroupId = 0 := active_count_zero_of_fresh hwf
      have hle : activeCountL db2.members db.nextGroupId ≤ 0 := hz ▸ hcnt db.nextGroupId
      have hzero : activeCountL db2.members db.nextGroupId = 0 := Nat.le_zero.mp hle
      unfold groupWithinCap
      rw [homax]
      simp only [Option.all, decide_eq_true_eq]
      show (1 : Int) + (activeCountL db2.members db.nextGroupId : Int) ≤ tr.family_max_members
      rw [hzero]
      push_cast
      omega
  · -- existing group, possibly re-bound to the new subscription id
    dsimp only at hg2
    split at hg2
    · simp only at hg2
      rcases mem_updateFirst hg2 with hmem | ⟨x, hx, hx2⟩
      · exact transfer g2 hmem rfl rfl
      · subst hx2
        exact transfer x hx rfl rfl
    · exact transfer g2 hg2 rfl rfl

/-- Inversion of a successful create_family_invite run: the facts the
definition establishes on its success path. -/
theorem create_ok_inv {db : DB} {now : Nat} {o : User} {t : String} {db3 : DB}
    {inv : FamilyInvite} (h : create_family_invite db now o t = .ok db3 inv) :
    ∃ owner sub tr invitee,
      _load_user db owner.id = some owner ∧
      owner.id = o.id ∧
      owner.subscription = some sub ∧
      sub.tariff = some tr ∧
      tr.family_enabled = true ∧
      1 < tr.family_max_members ∧
      invitee ∈ db.users ∧
      inv = ⟨(_ensure_group db owner sub).1.nextInviteId, (_ensure_group db owner sub).2.id,
        invitee.id, owner.id, "pending", now, none, some (now + sevenDays)⟩ ∧
      capacityReject (activeCountL db.members (_ensure_group db owner sub).2.id)
        tr.family_max_members = false ∧
      db3.users = db.users ∧
      db3.groups = (_ensure_group db owner sub).1.groups ∧
      db3.devices = db.devices ∧
      ((db.members.find? (fun m =>
          m.family_group_id == (_ensure_group db owner sub).2.id &&
            m.user_id == invitee.id) = none ∧
        db3.members = db.members ++
          [⟨(_ensure_group db owner sub).2.id, invitee.id, "member", "invited",
            some owner.id, now, none, none⟩]) ∨
       ((db.members.find? (fun m =>
          m.family_group_id == (_ensure_group db owner sub).2.id &&
            m.user_id == invitee.id)).isSome ∧
        db3.members = updateFirst (fun m =>
          m.family_group_id == (_ensure_group db owner sub).2.id && m.user_id == invitee.id)
          (fun m => { m with
            status := "invited", role := "member", invited_by_user_id := some owner.id,
            invited_at := now, removed_at := none }) db.members)) := by
  unfold create_family_invite at h
  dsimp only [] at h
  split at h
  · simp at h
  next owner hload =>
  split at h
  · simp at h
  next max hval =>
  split at h
  · simp at h
  split at h
  · simp at h
  next invitee hfind =>
  split at h
  · simp at h
  split at h
  · simp at h
  split at h
  · simp at h
  split at h
  · simp at h
  split at h
  · simp at h
  next sub hsubeq =>
  split at h
  · simp at h
  next hcap =>
  split at h
  · simp at h
  next hpend =>
  obtain ⟨sub2, tr, hs2, ht2, hen, hmax2, hmaxeq⟩ := validate_ok_inv hval
  rw [hsubeq] at hs2
  injection hs2 with hs2
  subst hs2
  rw [hsubeq] at ht2
  simp only [Option.some_bind] at ht2
  obtain ⟨hoid, hownmem⟩ := load_user_id hload
  rw [← hoid] at hload
  have hcount : _active_member_count (_ensure_group db owner sub).1
      (_ensure_group db owner sub).2.id =
      activeCountL db.members (_ensure_group db owner sub).2.id := by
    show activeCountL (_ensure_group db owner sub).1.members _ = _
    rw [ensure_group_members]
  rw [hcount, hmaxeq] at hcap
  have hmemeq : (_ensure_group db owner sub).1.members = db.members :=
    ensure_group_members db owner sub
  rw [hmemeq] at h
  split at h
  next hmem =>
    cases h
    refine ⟨owner, sub, tr, invitee, hload, hoid, hsubeq, ht2, hen, hmax2,
      List.mem_of_find?_eq_some hfind, rfl, ?_, ?_, ?_, ?_, Or.inl ⟨hmem, rfl⟩⟩
    · simpa using hcap
    · exact ensure_group_users db owner sub
    · rfl
    · exact ensure_group_devices db owner sub
  next m hmem =>
    cases h
    refine ⟨owner, sub, tr, invitee, hload, hoid, hsubeq, ht2, hen, hmax2,
      List.mem_of_find?_eq_some hfind, rfl, ?_, ?_, ?_, ?_,
      Or.inr ⟨by rw [hmem]; rfl, rfl⟩⟩
    · simpa using hcap
    · exact ensure_group_users db owner sub
    · rfl
    · exact ensure_group_devices db owner sub

/-- A failed create_family_invite commits nothing. -/
theorem create_err_state {db : DB} {now : Nat} {o : User} {t : String} {db2 : DB}
    {e : ApiError} (h : create_family_invite db now o t = .err db2 e) : db2 = db := by
  unfold create_family_invite at h
  dsimp only [] at h
  repeat' split at h
  all_goals first
    | (cases h; rfl)
    | simp at h

theorem capInv_create (db : DB) (now : Nat) (o : User) (t : String)
    (hwf : dbWf db) (hinv : capInv db) :
    capInv (create_family_invite db now o t).state := by
  rcases hres : create_family_invite db now o t with ⟨db3, inv⟩ | ⟨db2, e⟩
  · obtain ⟨owner, sub, tr, invitee, hload, hoid, hsubeq, htr, hen, hmax2, hinvmem,
      hinv_eq, hcap, husers, hgroups, hdev, hmem⟩ := create_ok_inv hres
    show capInv db3
    refine capInv_invite_post hwf hinv hload hsubeq ⟨tr, htr, hmax2⟩ husers hgroups ?_
    intro gid
    rcases hmem with ⟨hnone, hms⟩ | ⟨hsome, hms⟩
    · rw [hms]
      rw [activeCountL_append_not_active]
      simp
    · rw [hms]
      exact activeCountL_updateFirst_not_active (fun m => by simp) db.members gid
  · show capInv db2
    rw [create_err_state hres]
    exact hinv

/-- Inversion of a successful accept_family_invite run. -/
theorem accept_ok_inv {db : DB} {now : Nat} {u : User} {iid : Nat} {cr : Bool}
    {db2 : DB} {rinv : FamilyInvite}
    (h : accept_family_invite db now u iid cr = .ok db2 rinv) :
    ∃ inv group owner sub tr,
      _invite_for_update db iid = some inv ∧
      inv.invitee_user_id = u.id ∧
      inv.status = "pending" ∧
      db.groups.find? (fun g => g.id == inv.family_group_id) = some group ∧
      _load_user db group.owner_user_id = some owner ∧
      owner.subscription = some sub ∧
      sub.tariff = some tr ∧
      tr.family_enabled = true ∧
      1 < tr.family_max_members ∧
      _in_active_family db u.id (some group.id) = false ∧
      capacityReject (activeCountL db.members group.id) tr.family_max_members = false ∧
      cr = false ∧
      db2.users = db.users ∧
      db2.groups = db.groups ∧
      db2.devices = db.devices ∧
      db2.invites = updateFirst (fun i => i.id == iid)
        (fun i => { i with status := "accepted", decided_at := some now }) db.invites ∧
      rinv = { inv with status := "accepted", decided_at := some now } ∧
      ((db.members.find? (fun m =>
          m.family_group_id == group.id && m.user_id == u.id) = none ∧
        db2.members = db.members ++
          [⟨group.id, u.id, "member", "active", some inv.inviter_user_id,
            inv.created_at, some now, none⟩]) ∨
       ((db.members.find? (fun m =>
          m.family_group_id == group.id && m.user_id == u.id)).isSome ∧
        db2.members = updateFirst (fun m =>
          m.family_group_id == group.id && m.user_id == u.id)
          (fun m => { m with
            status := "active", accepted_at := some now, removed_at := none })
          db.members)) := by
  unfold accept_family_invite at h
  dsimp only [] at h
  split at h
  · simp at h
  next inv hfind =>
  split at h
  · simp at h
  next hinvitee =>
  split at h
  · simp at h
  next hstatus =>
  split at h
  · simp at h
  next hexp =>
  split at h
  · simp at h
  next group hgfind =>
  split at h
  · simp at h
  next max hval =>
  split at h
  · simp at h
  next hfam =>
  split at h
  · simp at h
  next hcap =>
  obtain ⟨sub2, tr, hs2, ht2, hen, hmax2, hmaxeq⟩ := validate_ok_inv hval
  rcases hloado : _load_user db group.owner_user_id with _ | owner
  · rw [hloado] at hs2
    simp at hs2
  rw [hloado] at hs2 ht2
  simp only [Option.some_bind] at hs2 ht2
  rw [hs2] at ht2
  simp only [Option.some_bind] at ht2
  have hinvitee2 : inv.invitee_user_id = u.id := by
    simpa [bne] using hinvitee
  have hstatus2 : inv.status = "pending" := by
    simpa [bne] using hstatus
  have hfam2 : _in_active_family db u.id (some group.id) = false :=
    Bool.not_eq_true _ ▸ eq_false_of_ne_true hfam
  rw [hmaxeq] at hcap
  have hcap2 : capacityReject (activeCountL db.members group.id) tr.family_max_members
      = false := eq_false_of_ne_true hcap
  split at h
  · simp at h
  next hcr =>
  split at h
  next hmem =>
    cases h
    exact ⟨inv, group, owner, sub2, tr, hfind, hinvitee2, hstatus2, hgfind, hloado,
      hs2, ht2, hen, hmax2, hfam2, hcap2, eq_false_of_ne_true hcr, rfl, rfl, rfl, rfl,
      rfl, Or.inl ⟨hmem, rfl⟩⟩
  next m hmem =>
    cases h
    exact ⟨inv, group, owner, sub2, tr, hfind, hinvitee2, hstatus2, hgfind, hloado,
      hs2, ht2, hen, hmax2, hfam2, hcap2, eq_false_of_ne_true hcr, rfl, rfl, rfl, rfl,
      rfl, Or.inr ⟨by rw [hmem]; rfl, rfl⟩⟩

/-- A failed accept_family_invite changes at most the invite table (the
expired-invite branch commits the expiry mark before raising). -/
theorem accept_err_frame {db : DB} {now : Nat} {u : User} {iid : Nat} {cr : Bool}
    {db2 : DB} {e : ApiError} (h : accept_family_invite db now u iid cr = .err db2 e) :
    db2.users = db.users ∧ db2.groups = db.groups ∧ db2.members = db.members ∧
      db2.devices = db.devices := by
  unfold accept_family_invite at h
  dsimp only [] at h
  repeat' split at h
  all_goals first
    | (cases h; exact ⟨rfl, rfl, rfl, rfl⟩)
    | simp at h

theorem capInv_accept (db : DB) (now : Nat) (u : User) (iid : Nat) (cr : Bool)
    (hwf : dbWf db) (hinv : capInv db) :
    capInv (accept_family_invite db now u iid cr).state := by
  rcases hres : accept_family_invite db now u iid cr with ⟨db2, rinv⟩ | ⟨db2, e⟩
  · obtain ⟨inv, group, owner, sub, tr, hfind, hinvitee, hstatus, hgfind, hload,
      hsubeq, htr, hen, hmax2, hfam, hcap, hcr, husers, hgroups, hdev, hinvites,
      hrinv, hmem⟩ := accept_ok_inv hres
    show capInv db2
    have hgmem : group ∈ db.groups := List.mem_of_find?_eq_some hgfind
    have homax : ownersMax db group = some tr.family_max_members := by
      unfold ownersMax
      rw [hload]
      simp [hsubeq, htr]
    intro g2 hg2
    rw [hgroups] at hg2
    by_cases hid : g2.id = group.id
    · have hg2eq : g2 = group :=
        List.inj_on_of_nodup_map hwf.2.2 hg2 hgmem hid
      subst hg2eq
      unfold groupWithinCap
      rw [ownersMax_eq_of_users husers, homax]
      simp only [Option.all, decide_eq_true_eq]
      have hcnt2 : activeCountL db2.members g2.id ≤ activeCountL db.members g2.id + 1 := by
        rcases hmem with ⟨hnone, hms⟩ | ⟨hsome, hms⟩
        · rw [hms, activeCountL_append]
          split <;> omega
        · rw [hms]
          exact activeCountL_updateFirst_le_succ db.members g2.id
      have hcapx : ¬((1 : Int) + (activeCountL db.members g2.id : Int) ≥
          tr.family_max_members) := by
        have := hcap
        unfold capacityReject at this
        simpa using this
      show (1 : Int) + (_active_member_count db2 g2.id : Int) ≤ tr.family_max_members
      have : _active_member_count db2 g2.id = activeCountL db2.members g2.id := rfl
      rw [this]
      have h1 : (activeCountL db2.members g2.id : Int) ≤
          (activeCountL db.members g2.id : Int) + 1 := by exact_mod_cast hcnt2
      omega
    · refine groupWithinCap_transfer ?_ ?_ (hinv g2 hg2)
      · rw [ownersMax_eq_of_users husers]
      · show activeCountL db2.members g2.id ≤ activeCountL db.members g2.id
        rcases hmem with ⟨hnone, hms⟩ | ⟨hsome, hms⟩
        · rw [hms, activeCountL_append_other]
          exact fun hc => hid (hc.symm)
        · rw [hms]
          rw [activeCountL_updateFirst_other ?_ ?_ db.members g2.id hid]
          · intro m hm
            simp only [Bool.and_eq_true, beq_iff_eq] at hm
            exact hm.1
          · intro m
            rfl
  · show capInv db2
    obtain ⟨husers, hgroups, hmembers, hdev⟩ := accept_err_frame hres
    intro g2 hg2
    rw [hgroups] at hg2
    refine groupWithinCap_transfer ?_ ?_ (hinv g2 hg2)
    · rw [ownersMax_eq_of_users husers]
    · show activeCountL db2.members g2.id ≤ activeCountL db.members g2.id
      rw [hmembers]

/-- decline_family_invite leaves users, groups and devices untouched; the
member table is unchanged or has one row turned to status declined. -/
theorem decline_state_components (db : DB) (now : Nat) (u : User) (iid : Nat) :
    (decline_family_invite db now u iid).state.users = db.users ∧
    (decline_family_invite db now u iid).state.groups = db.groups ∧
    (decline_family_invite db now u iid).state.devices = db.devices ∧
    ((decline_family_invite db now u iid).state.members = db.members ∨
      ∃ gid, (decline_family_invite db now u iid).state.members =
        updateFirst (fun m => m.family_group_id == gid && m.user_id == u.id)
          (fun m => { m with status := "declined", removed_at := some now })
          db.members) := by
  unfold decline_family_invite
  dsimp only []
  repeat' split
  all_goals first
    | exact ⟨rfl, rfl, rfl, Or.inl rfl⟩
    | exact ⟨rfl, rfl, rfl, Or.inr ⟨_, rfl⟩⟩

/-- revoke_family_invite changes at most the invite table. -/
theorem revoke_state_components (db : DB) (now : Nat) (u : User) (iid : Nat) :
    (revoke_family_invite db now u iid).state.users = db.users ∧
    (revoke_family_invite db now u iid).state.groups = db.groups ∧
    (revoke_family_invite db now u iid).state.devices = db.devices ∧
    (revoke_family_invite db now u iid).state.members = db.members := by
  unfold revoke_family_invite
  dsimp only []
  repeat' split
  all_goals exact ⟨rfl, rfl, rfl, rfl⟩

/-- remove_family_member leaves users and groups untouched; the member table is
unchanged or has one active row turned to status removed. -/
theorem remove_state_components (db : DB) (now : Nat) (u : User) (mid : Nat) :
    (remove_family_member db now u mid).state.users = db.users ∧
    (remove_family_member db now u mid).state.groups = db.groups ∧
    ((remove_family_member db now u mid).state.members = db.members ∨
      ∃ gid, (remove_family_member db now u mid).state.members =
        updateFirst (fun m => m.family_group_id == gid && m.user_id == mid &&
          m.status == "active")
          (fun m => { m with status := "removed", removed_at := some now })
          db.members) := by
  unfold remove_family_member _remove_member_devices
  dsimp only []
  repeat' split
  all_goals first
    | exact ⟨rfl, rfl, Or.inl rfl⟩
    | exact ⟨rfl, rfl, Or.inr ⟨_, rfl⟩⟩

/-- leave_family leaves users and groups untouched; the member table is
unchanged or has one active row turned to status left. -/
theorem leave_state_components (db : DB) (now : Nat) (u : User) :
    (leave_family db now u).state.users = db.users ∧
    (leave_family db now u).state.groups = db.groups ∧
    ((leave_family db now u).state.members = db.members ∨
      ∃ gid, (leave_family db now u).state.members =
        updateFirst (fun m => m.family_group_id == gid && m.user_id == u.id &&
          m.status == "active")
          (fun m => { m with status := "left", removed_at := some now })
          db.members) := by
  unfold leave_family _remove_member_devices
  dsimp only []
  repeat' split
  all_goals first
    | exact ⟨rfl, rfl, Or.inl rfl⟩
    | exact ⟨rfl, rfl, Or.inr ⟨_, rfl⟩⟩

theorem capInv_runOp (db : DB) (now : Nat) (op : FamilyOp)
    (hwf : dbWf db) (hinv : capInv db) : capInv (runOp db now op) := by
  cases op with
  | invite o t => exact capInv_create db now o t hwf hinv
  | accept u i c => exact capInv_accept db now u i c hwf hinv
  | decline u i =>
    show capInv (decline_family_invite db now u i).state
    obtain ⟨husers, hgroups, hdev, hmem⟩ := decline_state_components db now u i
    refine capInv_of_le husers ?_ ?_ hinv
    · rw [hgroups]
      exact fun g2 hg2 => ⟨g2, hg2, rfl, rfl⟩
    · intro gid
      rcases hmem with hms | ⟨gid0, hms⟩
      · rw [hms]
      · rw [hms]
        exact activeCountL_updateFirst_not_active (fun m => by simp) db.members gid
  | revoke o i =>
    show capInv (revoke_family_invite db now o i).state
    obtain ⟨husers, hgroups, hdev, hmem⟩ := revoke_state_components db now o i
    refine capInv_of_le husers ?_ ?_ hinv
    · rw [hgroups]
      exact fun g2 hg2 => ⟨g2, hg2, rfl, rfl⟩
    · intro gid
      rw [hmem]
  | removeMember o m =>
    show capInv (remove_family_member db now o m).state
    obtain ⟨husers, hgroups, hmem⟩ := remove_state_components db now o m
    refine capInv_of_le husers ?_ ?_ hinv
    · rw [hgroups]
      exact fun g2 hg2 => ⟨g2, hg2, rfl, rfl⟩
    · intro gid
      rcases hmem with hms | ⟨gid0, hms⟩
      · rw [hms]
      · rw [hms]
        exact activeCountL_updateFirst_not_active (fun m => by simp) db.members gid
  | leave u =>
    show capInv (leave_family db now u).state
    obtain ⟨husers, hgroups, hmem⟩ := leave_state_components db now u
    refine capInv_of_le husers ?_ ?_ hinv
    · rw [hgroups]
      exact fun g2 hg2 => ⟨g2, hg2, rfl, rfl⟩
    · intro gid
      rcases hmem with hms | ⟨gid0, hms⟩
      · rw [hms]
      · rw [hms]
        exact activeCountL_updateFirst_not_active (fun m => by simp) db.members gid

/-! Concrete fixture: an owner on a family tariff with max 2 members (owner
slot plus one), and two invitees who have started the bot and hold no
subscription. -/

def exTariff : Tariff := ⟨true, 2⟩

def exOwnerSub : Subscription := ⟨101, "active", some 1000000, some exTariff⟩

def exOwner : User := ⟨1, some "owner", some 111, some exOwnerSub, some "owner-uuid"⟩

def exUserA : User := ⟨2, some "a", some 222, none, none⟩

def exUserB : User := ⟨3, some "b", some 333, none, none⟩

def exDB0 : DB := ⟨[exOwner, exUserA, exUserB], [], [], [], [], 10, 20⟩

def exDB1 : DB := (create_family_invite exDB0 0 exOwner "@a").state

def exDB2 : DB := (create_family_invite exDB1 0 exOwner "@b").state

def exDB3 : DB := (accept_family_invite exDB2 1 exUserA 20 false).state

def exInvA : FamilyInvite := ⟨20, 10, 2, 1, "pending", 0, none, some 604800⟩

def exInvB : FamilyInvite := ⟨21, 10, 3, 1, "pending", 0, none, some 604800⟩

end FamilyCoordinator

namespace FamilyCoordinator

/-- C2: invite issuance does not consume a capacity slot and capacity is
re-checked at accept time.  With family_max_members = 2 and no active members,
invites to A and B both pass the invite-time capacity check; after A accepts
(active count 1), B's accept fails with the capacity error, although B's
invite was issued successfully. -/
theorem invite_does_not_consume_slot :
    exTariff.family_max_members = 2 ∧
    create_family_invite exDB0 0 exOwner "@a" = .ok exDB1 exInvA ∧
    _active_member_count exDB1 10 = 0 ∧
    create_family_invite exDB1 0 exOwner "@b" = .ok exDB2 exInvB ∧
    _active_member_count exDB2 10 = 0 ∧
    accept_family_invite exDB2 1 exUserA 20 false =
      .ok exDB3 { exInvA with status := "accepted", decided_at := some 1 } ∧
    _active_member_count exDB3 10 = 1 ∧
    accept_family_invite exDB3 2 exUserB 21 false =
      .err exDB3 (.http 400 "Family member limit reached") := by
  refine ⟨rfl, ?_, ?_, ?_, ?_, ?_, ?_, ?_⟩ <;> decide

/-- C3: the source of accept_family_invite has no handler around its commit, so
a commit-time unique-constraint IntegrityError propagates out of the call
instead of being translated to the HTTP 409 conflict that the repository's own
test (test_accept_family_invite_returns_conflict_on_unique_violation) expects.
Evaluated at a state where A's accept would otherwise succeed. -/
theorem commit_conflict_propagates_uncaught :
    accept_family_invite exDB2 1 exUserA 20 true =
      .err exDB2 (.integrity "IntegrityError") := by
  decide

/-- C1: if every group satisfies the capacity invariant (owner slot plus
active members within the owner's tariff limit) in a well-formed state, the
invariant still holds after any committed coordinator operation — invite
creation, invite acceptance, decline, revoke, member removal, or leave —
whether the operation succeeded or failed; and the capacity check used at
invite-issue and accept time rejects exactly when 1 + active_count is at least
max_members. -/
theorem capacity_invariant_preserved (db : DB) (now : Nat) (op : FamilyOp)
    (hwf : dbWf db) (hinv : capInv db) :
    capInv (runOp db now op) ∧
      (∀ c m, capacityReject c m = true ↔ (1 : Int) + c ≥ m) :=
  ⟨capInv_runOp db now op hwf hinv, fun c m => by simp [capacityReject]⟩

/-- Witness for C1 at a concrete state and operation: B's accept attempt on the
full group (which the capacity check rejects). -/
theorem capacity_invariant_preserved_witness :
    capInv (runOp exDB3 2 (.accept exUserB 21 false)) ∧
      (∀ c m, capacityReject c m = true ↔ (1 : Int) + c ≥ m) :=
  capacity_invariant_preserved exDB3 2 (.accept exUserB 21 false)
    (by decide) (by decide)

/-- C6: accepting a pending invite whose expiry time has passed marks the
invite expired with decided_at set, commits that change, and fails with the
Invite expired error; the member table (in particular the invitee's member
row) is not touched by this call. -/
theorem accept_expired_invite (db : DB) (now : Nat) (u : User) (iid : Nat)
    (cr : Bool) (inv : FamilyInvite) (e : Nat)
    (hfind : _invite_for_update db iid = some inv)
    (hmine : inv.invitee_user_id = u.id)
    (hpending : inv.status = "pending")
    (hexp : inv.expires_at = some e) (hle : e ≤ now) :
    ∃ db1, accept_family_invite db now u iid cr = .err db1 (.http 400 "Invite expired") ∧
      _invite_for_update db1 iid =
        some { inv with status := "expired", decided_at := some now } ∧
      db1.members = db.members ∧ db1.groups = db.groups ∧ db1.users = db.users ∧
      db1.devices = db.devices := by
  unfold accept_family_invite
  dsimp only []
  rw [hfind]
  dsimp only []
  rw [if_neg (by simp [hmine] : ¬((inv.invitee_user_id != u.id) = true))]
  rw [if_neg (by simp [hpending] : ¬((inv.status != "pending") = true))]
  rw [hexp]
  dsimp only []
  rw [if_pos (by simpa using hle : (decide (e ≤ now)) = true)]
  refine ⟨_, rfl, ?_, rfl, rfl, rfl, rfl⟩
  show (updateFirst (fun i => i.id == iid) _ db.invites).find? (fun i => i.id == iid) = _
  rw [find?_updateFirst (fun (i : FamilyInvite) => i.id == iid)
    (fun (i : FamilyInvite) => { i with status := "expired", decided_at := some now })
    (fun i => rfl)]
  show (db.invites.find? (fun i => i.id == iid)).map _ = _
  rw [show db.invites.find? (fun i => i.id == iid) = some inv from hfind]
  simp
  exact hexp

/-- Witness for C6: the concrete expired invite of the fixture family. -/
theorem accept_expired_invite_witness :
    ∃ db1,
      accept_family_invite
        ⟨[exOwner, exUserA], [⟨10, 1, 101⟩],
          [⟨10, 2, "member", "invited", some 1, 0, none, none⟩],
          [⟨20, 10, 2, 1, "pending", 0, none, some 5⟩], [], 11, 21⟩ 6 exUserA 20 false =
        .err db1 (.http 400 "Invite expired") ∧
      _invite_for_update db1 20 =
        some { (⟨20, 10, 2, 1, "pending", 0, none, some 5⟩ : FamilyInvite) with
          status := "expired", decided_at := some 6 } ∧
      db1.members =
        [⟨10, 2, "member", "invited", some 1, 0, none, none⟩] ∧
      db1.groups = [⟨10, 1, 101⟩] ∧ db1.users = [exOwner, exUserA] ∧
      db1.devices = [] :=
  accept_expired_invite _ 6 exUserA 20 false _ 5 rfl rfl rfl rfl (by decide)

/-- In the member branch of get_access_context the surfaced subscription is the
owner's. -/
theorem access_context_member_shape (db : DB) (u : User) :
    (get_access_context db u).role = some "member" →
    (get_access_context db u).subscription =
      (get_access_context db u).owner.bind User.subscription := by
  unfold get_access_context
  dsimp only []
  repeat' split
  all_goals intro hrole
  all_goals first
    | rfl
    | simp at hrole

/-- C4: personal-over-family priority of resolve_effective_subscription.  If
the requester's own subscription is currently active the result is the
personal one, independently of any family state; otherwise, if the requester
resolves to an active family member and the owner's subscription is active,
the result is the owner's subscription with source family_owner; otherwise the
result is inactive with no source, the subscription field carrying the
requester's own (inactive) subscription. -/
theorem effective_subscription_priority (db : DB) (now : Nat) (user : User)
    (requester : User) (hload : _load_user db user.id = some requester) :
    (is_subscription_active requester.subscription now = true →
      resolve_effective_subscription db now user =
        ⟨true, some "personal", requester.subscription,
          requester.subscription.bind Subscription.tariff, some requester,
          some requester⟩) ∧
    (is_subscription_active requester.subscription now = false →
      (get_access_context db requester).role = some "member" →
      is_subscription_active (get_access_context db requester).subscription now = true →
      resolve_effective_subscription db now user =
        ⟨true, some "family_owner", (get_access_context db requester).subscription,
          (get_access_context db requester).tariff,
          (get_access_context db requester).owner, some requester⟩) ∧
    (is_subscription_active requester.subscription now = false →
      ¬((get_access_context db requester).role = some "member" ∧
        is_subscription_active (get_access_context db requester).subscription now = true) →
      (resolve_effective_subscription db now user).active = false ∧
      (resolve_effective_subscription db now user).source = none ∧
      (resolve_effective_subscription db now user).subscription =
        requester.subscription) := by
  have hres : resolve_effective_subscription db now user =
      (if is_subscription_active requester.subscription now then
        ⟨true, some "personal", requester.subscription,
          requester.subscription.bind Subscription.tariff, some requester, some requester⟩
      else
        let ctx := get_access_context db requester
        if ctx.role == some "member" && ctx.owner.isSome && ctx.subscription.isSome &&
            is_subscription_active ctx.subscription now then
          ⟨true, some "family_owner", ctx.subscription, ctx.tariff, ctx.owner,
            some requester⟩
        else
          ⟨false, none, requester.subscription,
            requester.subscription.bind Subscription.tariff, none, some requester⟩) := by
    unfold resolve_effective_subscription
    rw [hload]
  refine ⟨?_, ?_, ?_⟩
  · intro hact
    rw [hres, if_pos hact]
  · intro hinact hrole hfam
    have hsub : (get_access_context db requester).subscription.isSome = true := by
      rcases hs : (get_access_context db requester).subscription with _ | s
      · rw [hs] at hfam
        simp [is_subscription_active] at hfam
      · rfl
    have hown : (get_access_context db requester).owner.isSome = true := by
      have hshape := access_context_member_shape db requester hrole
      rcases ho : (get_access_context db requester).owner with _ | o
      · rw [ho] at hshape
        rw [hshape] at hsub
        simp at hsub
      · rfl
    rw [hres, if_neg (by simp [hinact])]
    dsimp only []
    rw [if_pos (by simp [hrole, hown, hsub, hfam])]
  · intro hinact hnot
    rw [hres, if_neg (by simp [hinact])]
    dsimp only []
    rw [if_neg ?_]
    · exact ⟨rfl, rfl, rfl⟩
    · intro hcond
      simp only [Bool.and_eq_true, beq_iff_eq] at hcond
      exact hnot ⟨hcond.1.1.1, hcond.2⟩

/-- Witness for C4 at a concrete state: member A of the fixture family (own
subscription absent, owner's subscription active) resolves to the owner's
subscription with source family_owner. -/
theorem effective_subscription_priority_witness :
    resolve_effective_subscription exDB3 5 exUserA =
      ⟨true, some "family_owner", (get_access_context exDB3 exUserA).subscription,
        (get_access_context exDB3 exUserA).tariff,
        (get_access_context exDB3 exUserA).owner, some exUserA⟩ :=
  (effective_subscription_priority exDB3 5 exUserA exUserA (by decide)).2.1
    (by decide) (by decide) (by decide)

/-- C5: device-deletion authorization of the caller-facing operation (modelled
from the spec, see delete_device).  An owner deletes any device of the group
and a remote panel delete call is issued for its hwid; a member attempting to
delete the group owner's device gets the 403 forbidden error; a member deletes
their own device. -/
theorem device_delete_permissions (db : DB) (user : User) (hwid : String) :
    (∀ group owner device uuid,
      (get_access_context db user).group = some group →
      (get_access_context db user).owner = some owner →
      (get_access_context db user).role = some "owner" →
      db.devices.find? (fun d =>
        d.family_group_id == group.id && d.hwid == hwid) = some device →
      owner.remnawave_uuid = some uuid →
      delete_device db user hwid =
        .ok { db with devices := db.devices.filter (fun d =>
          !(d.family_group_id == group.id && d.hwid == hwid)) }
          [(uuid, device.hwid)]) ∧
    (∀ group owner device,
      (get_access_context db user).group = some group →
      (get_access_context db user).owner = some owner →
      (get_access_context db user).role = some "member" →
      db.devices.find? (fun d =>
        d.family_group_id == group.id && d.hwid == hwid) = some device →
      device.owner_user_id = owner.id →
      owner.id ≠ (get_access_context db user).requester.id →
      delete_device db user hwid =
        .err db (.http 403 "Family member cannot delete owner devices")) ∧
    (∀ group owner device uuid,
      (get_access_context db user).group = some group →
      (get_access_context db user).owner = some owner →
      (get_access_context db user).role = some "member" →
      db.devices.find? (fun d =>
        d.family_group_id == group.id && d.hwid == hwid) = some device →
      device.owner_user_id = (get_access_context db user).requester.id →
      owner.remnawave_uuid = some uuid →
      delete_device db user hwid =
        .ok { db with devices := db.devices.filter (fun d =>
          !(d.family_group_id == group.id && d.hwid == hwid)) }
          [(uuid, device.hwid)]) := by
  refine ⟨?_, ?_, ?_⟩
  · intro group owner device uuid hg ho hrole hfind huuid
    unfold delete_device
    dsimp only []
    rw [hg, ho]
    dsimp only []
    rw [hfind]
    dsimp only []
    rw [if_neg (by simp [hrole])]
    rw [huuid]
  · intro group owner device hg ho hrole hfind howndev hne
    unfold delete_device
    dsimp only []
    rw [hg, ho]
    dsimp only []
    rw [hfind]
    dsimp only []
    rw [if_pos (by simp [hrole, howndev, bne]; exact fun hc => hne hc)]
  · intro group owner device uuid hg ho hrole hfind hown huuid
    unfold delete_device
    dsimp only []
    rw [hg, ho]
    dsimp only []
    rw [hfind]
    dsimp only []
    rw [if_neg (by simp [hrole, hown])]
    rw [huuid]

/-- One device of the fixture owner and one of member A, both registered to
the fixture group. -/
def exDevO : FamilyDevice := ⟨10, "hw-owner", 1, "iOS", "iPhone 15", 0, 0⟩

def exDevA : FamilyDevice := ⟨10, "hw-a", 2, "Android", "Pixel", 0, 0⟩

def exDBdev : DB := { exDB3 with devices := [exDevO, exDevA] }

/-- Witness for C5: in the fixture family, member A's attempt on the owner's
device is rejected with 403, and the owner's deletion of A's device succeeds
and issues the remote panel call for that hwid. -/
theorem device_delete_permissions_witness :
    delete_device exDBdev exUserA "hw-owner" =
      .err exDBdev (.http 403 "Family member cannot delete owner devices") ∧
    delete_device exDBdev exOwner "hw-a" =
      .ok { exDBdev with devices := exDBdev.devices.filter (fun d =>
        !(d.family_group_id == (10 : Nat) && d.hwid == "hw-a")) }
        [("owner-uuid", "hw-a")] :=
  ⟨(device_delete_permissions exDBdev exUserA "hw-owner").2.1 ⟨10, 1, 101⟩ exOwner exDevO
      (by decide) (by decide) (by decide) (by decide) (by decide) (by decide),
   (device_delete_permissions exDBdev exOwner "hw-a").1 ⟨10, 1, 101⟩ exOwner exDevA
      "owner-uuid" (by decide) (by decide) (by decide) (by decide) (by decide)⟩

/-- C9 counterexample: the family-overview query, a read in the spec's terms,
materialises a FamilyGroup row for an eligible owner who has none. -/
theorem overview_creates_group_counterexample :
    (⟨[exOwner], [], [], [], [], 10, 20⟩ : DB).groups = [] ∧
    (get_family_overview ⟨[exOwner], [], [], [], [], 10, 20⟩ exOwner).1.groups =
      [⟨10, 1, 101⟩] := by
  refine ⟨rfl, ?_⟩
  decide

/-- The condition under which get_family_overview materialises a group: the
requester resolves to an owner with a subscription, a family-enabled tariff
with max_members above 1, and no existing group. -/
def overviewCreatesGroup (db : DB) (user : User) : Bool :=
  let ctx := get_access_context db user
  ctx.owner.isSome && ctx.subscription.isSome && (ctx.role == some "owner") &&
    ctx.group.isNone &&
    (match ctx.tariff with
     | some t => t.family_enabled && decide (t.family_max_members > 1)
     | none => false)

/-- An access context with role owner and no group comes from the lazy branch:
the user owns no group row and is their own owner. -/
theorem access_context_owner_no_group (db : DB) (u : User) :
    (get_access_context db u).role = some "owner" →
    (get_access_context db u).group = none →
    ∀ owner, (get_access_context db u).owner = some owner →
      _owner_group db owner.id = none ∧
        (get_access_context db u).subscription = owner.subscription := by
  unfold get_access_context
  dsimp only []
  repeat' split
  all_goals intro hrole hgroup owner howner
  all_goals try simp at hrole
  all_goals try simp at hgroup
  rename_i xu requester hload xm hmem xg hog xs sub hsub
  injection howner with howner
  subst howner
  exact ⟨hog, hsub.symm⟩

theorem accept_state_groups (db : DB) (now : Nat) (u : User) (iid : Nat) (cr : Bool) :
    (accept_family_invite db now u iid cr).state.groups = db.groups := by
  unfold accept_family_invite
  dsimp only []
  repeat' split
  all_goals rfl

theorem ensure_group_fresh (db : DB) (o : User) (s : Subscription)
    (h : _owner_group db o.id = none) :
    (_ensure_group db o s).1.groups = db.groups ++ [⟨db.nextGroupId, o.id, s.id⟩] := by
  unfold _ensure_group
  rw [h]

/-- C9 amended: a FamilyGroup row is created only through _ensure_group.  The
overview query creates one exactly when the requester is an eligible owner
with no group (and then appends the lazily materialised group); the other
mutating operations apart from invite creation never change the group table;
invite creation changes it only through _ensure_group, which appends a fresh
group for a groupless owner and keeps owner and subscription binding
otherwise. -/
theorem group_creation_characterisation (db : DB) (now : Nat) (user : User) :
    (if overviewCreatesGroup db user then
      ∃ owner sub, (get_access_context db user).owner = some owner ∧
        (get_access_context db user).subscription = some sub ∧
        (get_family_overview db user).1.groups =
          db.groups ++ [⟨db.nextGroupId, owner.id, sub.id⟩]
     else (get_family_overview db user).1.groups = db.groups) ∧
    (∀ u2 iid cr, (accept_family_invite db now u2 iid cr).state.groups = db.groups) ∧
    (∀ u2 iid, (decline_family_invite db now u2 iid).state.groups = db.groups) ∧
    (∀ u2 iid, (revoke_family_invite db now u2 iid).state.groups = db.groups) ∧
    (∀ u2 mid, (remove_family_member db now u2 mid).state.groups = db.groups) ∧
    (∀ u2, (leave_family db now u2).state.groups = db.groups) ∧
    (∀ o t db2 e, create_family_invite db now o t = .err db2 e →
      db2.groups = db.groups) ∧
    (∀ o t db3 inv, create_family_invite db now o t = .ok db3 inv →
      ∃ owner sub, _load_user db owner.id = some owner ∧
        owner.subscription = some sub ∧
        db3.groups = (_ensure_group db owner sub).1.groups) ∧
    (∀ o s, (_ensure_group db o s).2.owner_user_id = o.id ∧
      (_ensure_group db o s).2.subscription_id = s.id ∧
      (_owner_group db o.id = none →
        (_ensure_group db o s).1.groups = db.groups ++ [⟨db.nextGroupId, o.id, s.id⟩])) := by
  refine ⟨?_, ?_, ?_, ?_, ?_, ?_, ?_, ?_, ?_⟩
  · by_cases hb : overviewCreatesGroup db user = true
    · rw [if_pos hb]
      unfold overviewCreatesGroup at hb
      dsimp only [] at hb
      rcases ho : (get_access_context db user).owner with _ | owner <;> rw [ho] at hb
      · simp at hb
      rcases hs : (get_access_context db user).subscription with _ | sub <;> rw [hs] at hb
      · simp at hb
      rcases ht : (get_access_context db user).tariff with _ | tr <;> rw [ht] at hb
      · simp at hb
      simp only [Option.isSome_some, Option.isNone_iff_eq_none, Bool.true_and,
        Bool.and_eq_true, beq_iff_eq, decide_eq_true_eq] at hb
      obtain ⟨⟨hrole, hgroup⟩, hen, hmax⟩ := hb
      obtain ⟨hog, hsubown⟩ := access_context_owner_no_group db user hrole hgroup owner ho
      refine ⟨owner, sub, rfl, rfl, ?_⟩
      unfold get_family_overview
      dsimp only []
      rw [ho, hs]
      dsimp only []
      rw [ht]
      dsimp only []
      rw [hgroup]
      dsimp only []
      rw [if_pos (by simp [hrole, hen, hmax])]
      dsimp only []
      rw [ensure_group_fresh db owner sub hog]
    · rw [if_neg hb]
      unfold get_family_overview
      dsimp only []
      rcases ho : (get_access_context db user).owner with _ | owner <;> try dsimp only []
      rcases hs : (get_access_context db user).subscription with _ | sub <;> try dsimp only []
      rcases hg : (get_access_context db user).group with _ | g <;> try dsimp only []
      have hcond : ¬(((get_access_context db user).role == some "owner" &&
          match (get_access_context db user).tariff with
          | some t => t.family_enabled && decide (t.family_max_members > 1)
          | none => false) = true) := by
        intro hcond
        apply hb
        unfold overviewCreatesGroup
        dsimp only []
        rw [ho, hs, hg]
        simp only [Option.isSome_some, Option.isNone_none, Bool.true_and,
          Bool.and_true, Bool.and_eq_true] at hcond ⊢
        exact hcond
      rw [if_neg hcond]
  · exact fun u2 iid cr => accept_state_groups db now u2 iid cr
  · intro u2 iid
    exact (decline_state_components db now u2 iid).2.1
  · intro u2 iid
    exact (revoke_state_components db now u2 iid).2.1
  · intro u2 mid
    exact (remove_state_components db now u2 mid).2.1
  · intro u2
    exact (leave_state_components db now u2).2.1
  · intro o t db2 e h
    rw [create_err_state h]
  · intro o t db3 inv h
    obtain ⟨owner, sub, tr, invitee, hload, hoid, hsubeq, htr, hen, hmax2, hinvmem,
      hinv_eq, hcap, husers, hgroups, hdev, hmem⟩ := create_ok_inv h
    exact ⟨owner, sub, hload, hsubeq, hgroups⟩
  · intro o s
    refine ⟨?_, ?_, ensure_group_fresh db o s⟩
    · unfold _ensure_group
      rcases hog : _owner_group db o.id with _ | g <;> dsimp only []
      have hid : g.owner_user_id = o.id := by
        have := List.find?_some hog
        simpa using this
      split
      · simpa using hid
      · simpa using hid
    · unfold _ensure_group
      rcases hog : _owner_group db o.id with _ | g <;> dsimp only []
      split
      · rfl
      · next hne =>
        have hsid : g.subscription_id = s.id := by
          simpa [bne] using hne
        simpa using hsid

/-! Member-row uniqueness: the uq_family_members_group_user constraint. -/

theorem find?_eq_of_filter_singleton {p : α → Bool} {ms : List α} {m0 : α}
    (h : ms.filter p = [m0]) : ms.find? p = some m0 := by
  induction ms with
  | nil => simp at h
  | cons x xs ih =>
    by_cases hx : p x
    · rw [List.filter_cons_of_pos hx] at h
      injection h with h1 h2
      rw [List.find?_cons_of_pos _ hx, h1]
    · rw [List.filter_cons_of_neg hx] at h
      rw [List.find?_cons_of_neg _ hx]
      exact ih h

theorem filter_updateFirst_singleton {p : α → Bool} {f : α → α} {ms : List α} {m0 : α}
    (hp : ∀ x, p (f x) = p x) (h : ms.filter p = [m0]) :
    (updateFirst p f ms).filter p = [f m0] := by
  induction ms with
  | nil => simp at h
  | cons x xs ih =>
    by_cases hx : p x
    · rw [List.filter_cons_of_pos hx] at h
      injection h with h1 h2
      subst h1
      simp only [updateFirst, if_pos hx]
      rw [List.filter_cons_of_pos (by rw [hp]; exact hx), h2]
    · rw [List.filter_cons_of_neg hx] at h
      simp only [updateFirst, if_neg hx]
      rw [List.filter_cons_of_neg hx]
      exact ih h

theorem keys_notin_of_find?_none {ms : List FamilyMember} {gid uid : Nat}
    (h : ms.find? (fun m => m.family_group_id == gid && m.user_id == uid) = none) :
    (gid, uid) ∉ ms.map (fun m => (m.family_group_id, m.user_id)) := by
  intro hmem
  obtain ⟨m, hm, hk⟩ := List.mem_map.mp hmem
  have hnp := List.find?_eq_none.mp h m hm
  apply hnp
  injection hk with hk1 hk2
  simp [hk1, hk2]

theorem nodup_append_singleton {l : List α} {a : α} (hl : l.Nodup) (ha : a ∉ l) :
    (l ++ [a]).Nodup := by
  simp [List.nodup_append, hl, ha]

/-- The member-key map is unchanged by an update that keeps group and user. -/
theorem memberKeys_updateFirst (p : FamilyMember → Bool) (f : FamilyMember → FamilyMember)
    (hf : ∀ m, (f m).family_group_id = m.family_group_id ∧ (f m).user_id = m.user_id)
    (ms : List FamilyMember) :
    (updateFirst p f ms).map (fun m => (m.family_group_id, m.user_id)) =
      ms.map (fun m => (m.family_group_id, m.user_id)) :=
  map_updateFirst_eq (fun m => by rw [(hf m).1, (hf m).2]) ms

/-- C7: every committed operation keeps the (group_id, user_id) keys of the
member table pairwise distinct, and re-inviting a user whose single member row
is in a terminal status (removed, declined or left) reuses that row — resetting
it to status invited with removed_at cleared and invited_at / invited_by
renewed — so the row count for the pair stays at one. -/
theorem member_row_reuse (db : DB) (now : Nat) (op : FamilyOp)
    (hkeys : memberKeysNodup db) :
    memberKeysNodup (runOp db now op) ∧
    (∀ o t db3 inv m0,
      create_family_invite db now o t = .ok db3 inv →
      memberRowsL db.members inv.family_group_id inv.invitee_user_id = [m0] →
      (m0.status = "removed" ∨ m0.status = "declined" ∨ m0.status = "left") →
      memberRowsL db3.members inv.family_group_id inv.invitee_user_id =
        [{ m0 with
            status := "invited", role := "member",
            invited_by_user_id := some inv.inviter_user_id, invited_at := now,
            removed_at := none }]) := by
  constructor
  · cases op with
    | invite o t =>
      rcases hres : create_family_invite db now o t with ⟨db3, inv⟩ | ⟨db2, e⟩
      · obtain ⟨owner, sub, tr, invitee, hload, hoid, hsubeq, htr, hen, hmax2, hinvmem,
          hinv_eq, hcap, husers, hgroups, hdev, hmem⟩ := create_ok_inv hres
        show memberKeysNodup (create_family_invite db now o t).state
        rw [hres]
        show memberKeysNodup db3
        unfold memberKeysNodup
        rcases hmem with ⟨hnone, hms⟩ | ⟨hsome, hms⟩
        · rw [hms, List.map_append]
          exact nodup_append_singleton hkeys (keys_notin_of_find?_none hnone)
        · rw [hms, memberKeys_updateFirst _ (fun m => { m with
            status := "invited", role := "member",
            invited_by_user_id := some owner.id, invited_at := now,
            removed_at := none }) (fun m => ⟨rfl, rfl⟩)]
          exact hkeys
      · show memberKeysNodup (create_family_invite db now o t).state
        rw [hres]
        show memberKeysNodup db2
        rw [create_err_state hres]
        exact hkeys
    | accept u i c =>
      rcases hres : accept_family_invite db now u i c with ⟨db2, rinv⟩ | ⟨db2, e⟩
      · obtain ⟨inv, group, owner, sub, tr, hfind, hinvitee, hstatus, hgfind, hload,
          hsubeq, htr, hen, hmax2, hfam, hcap, hcr, husers, hgroups, hdev, hinvites,
          hrinv, hmem⟩ := accept_ok_inv hres
        show memberKeysNodup (accept_family_invite db now u i c).state
        rw [hres]
        show memberKeysNodup db2
        unfold memberKeysNodup
        rcases hmem with ⟨hnone, hms⟩ | ⟨hsome, hms⟩
        · rw [hms, List.map_append]
          exact nodup_append_singleton hkeys (keys_notin_of_find?_none hnone)
        · rw [hms, memberKeys_updateFirst _ (fun m => { m with
            status := "active", accepted_at := some now,
            removed_at := none }) (fun m => ⟨rfl, rfl⟩)]
          exact hkeys
      · show memberKeysNodup (accept_family_invite db now u i c).state
        rw [hres]
        show memberKeysNodup db2
        unfold memberKeysNodup
        rw [(accept_err_frame hres).2.2.1]
        exact hkeys
    | decline u i =>
      show memberKeysNodup (decline_family_invite db now u i).state
      unfold memberKeysNodup
      rcases (decline_state_components db now u i).2.2.2 with hms | ⟨gid0, hms⟩
      · rw [hms]
        exact hkeys
      · rw [hms, memberKeys_updateFirst _ (fun m => { m with
          status := "declined", removed_at := some now }) (fun m => ⟨rfl, rfl⟩)]
        exact hkeys
    | revoke o i =>
      show memberKeysNodup (revoke_family_invite db now o i).state
      unfold memberKeysNodup
      rw [(revoke_state_components db now o i).2.2.2]
      exact hkeys
    | removeMember o m =>
      show memberKeysNodup (remove_family_member db now o m).state
      unfold memberKeysNodup
      rcases (remove_state_components db now o m).2.2 with hms | ⟨gid0, hms⟩
      · rw [hms]
        exact hkeys
      · rw [hms, memberKeys_updateFirst _ (fun x => { x with
          status := "removed", removed_at := some now }) (fun x => ⟨rfl, rfl⟩)]
        exact hkeys
    | leave u =>
      show memberKeysNodup (leave_family db now u).state
      unfold memberKeysNodup
      rcases (leave_state_components db now u).2.2 with hms | ⟨gid0, hms⟩
      · rw [hms]
        exact hkeys
      · rw [hms, memberKeys_updateFirst _ (fun m => { m with
          status := "left", removed_at := some now }) (fun m => ⟨rfl, rfl⟩)]
        exact hkeys
  · intro o t db3 inv m0 hres hsingle hterm
    obtain ⟨owner, sub, tr, invitee, hload, hoid, hsubeq, htr, hen, hmax2, hinvmem,
      hinv_eq, hcap, husers, hgroups, hdev, hmem⟩ := create_ok_inv hres
    subst hinv_eq
    rcases hmem with ⟨hnone, hms⟩ | ⟨hsome, hms⟩
    · exfalso
      have hfind := find?_eq_of_filter_singleton hsingle
      rw [hnone] at hfind
      exact Option.noConfusion hfind
    · show memberRowsL db3.members _ _ = _
      rw [hms]
      exact filter_updateFirst_singleton (fun m => rfl) hsingle

end FamilyCoordinator

namespace FamilyCoordinator

/-- A state in which member A holds a terminal (removed) row in the owner's
group, for exercising the re-invite path. -/
def exDBterm : DB := ⟨[exOwner, exUserA, exUserB], [⟨10, 1, 101⟩],
  [⟨10, 2, "member", "removed", some 1, 0, some 1, some 3⟩], [], [], 11, 20⟩

/-- Witness for C7: re-inviting removed member A reuses the single member row,
resetting it to invited, and the member keys stay pairwise distinct. -/
theorem member_row_reuse_witness :
    memberKeysNodup (runOp exDBterm 5 (.invite exOwner "@a")) ∧
    memberRowsL (create_family_invite exDBterm 5 exOwner "@a").state.members 10 2 =
      [⟨10, 2, "member", "invited", some 1, 5, some 1, none⟩] :=
  ⟨(member_row_reuse exDBterm 5 (.invite exOwner "@a") (by decide)).1,
   (member_row_reuse exDBterm 5 (.invite exOwner "@a") (by decide)).2
     exOwner "@a" (create_family_invite exDBterm 5 exOwner "@a").state
     ⟨20, 10, 2, 1, "pending", 5, none, some 604805⟩
     ⟨10, 2, "member", "removed", some 1, 0, some 1, some 3⟩
     (by decide) (by decide) (by decide)⟩

end FamilyCoordinator

namespace FamilyCoordinator

/-! Device-reconciliation lemmas. -/

/-- The identity of a device row as far as reconciliation is concerned. -/
def devKey (d : FamilyDevice) : Nat × String × Nat :=
  (d.family_group_id, d.hwid, d.owner_user_id)

/-- The nonempty hwids of a panel snapshot, in order. -/
def nonemptyHwids (panel : List PanelDevice) : List String :=
  (panel.map panelHwid).filter (fun h => !(h == ""))

/-- The group has a row for this hwid. -/
def hasGroupHwid (ds : List FamilyDevice) (gid : Nat) (hw : String) : Bool :=
  (ds.find? (fun d => d.family_group_id == gid && d.hwid == hw)).isSome

theorem hasGroupHwid_iff_keys (ds : List FamilyDevice) (gid : Nat) (hw : String) :
    hasGroupHwid ds gid hw = true ↔
      ∃ k ∈ ds.map devKey, k.1 = gid ∧ k.2.1 = hw := by
  unfold hasGroupHwid
  rw [List.find?_isSome]
  constructor
  · rintro ⟨d, hd, hp⟩
    simp only [Bool.and_eq_true, beq_iff_eq] at hp
    exact ⟨devKey d, List.mem_map_of_mem _ hd, hp.1, hp.2⟩
  · rintro ⟨k, hk, h1, h2⟩
    obtain ⟨d, hd, hdk⟩ := List.mem_map.mp hk
    refine ⟨d, hd, ?_⟩
    subst hdk
    have e1 : d.family_group_id = gid := h1
    have e2 : d.hwid = hw := h2
    simp [e1, e2]

theorem hasGroupHwid_congr {ds1 ds2 : List FamilyDevice}
    (h : ds1.map devKey = ds2.map devKey) (gid : Nat) (hw : String) :
    hasGroupHwid ds1 gid hw = hasGroupHwid ds2 gid hw := by
  have h12 : hasGroupHwid ds1 gid hw = true ↔ hasGroupHwid ds2 gid hw = true := by
    rw [hasGroupHwid_iff_keys, hasGroupHwid_iff_keys, h]
  cases b1 : hasGroupHwid ds1 gid hw
  · cases b2 : hasGroupHwid ds2 gid hw
    · rfl
    · exact absurd (h12.mpr b2) (by simp [b1])
  · exact (h12.mp b1).symm

theorem syncOne_current (gid actor now : Nat) (ids : List Nat) (st : SyncState)
    (item : PanelDevice) :
    (syncOne gid actor now ids st item).current =
      st.current ++ (if panelHwid item == "" then [] else [panelHwid item]) := by
  unfold syncOne
  by_cases hw : (panelHwid item == "") = true
  · rw [if_pos hw, if_pos hw]
    simp
  · rw [if_neg hw, if_neg hw]
    dsimp only []
    split <;> rfl

theorem syncOne_devices (gid actor now : Nat) (ids : List Nat) (st : SyncState)
    (item : PanelDevice) :
    ((syncOne gid actor now ids st item).devices.map devKey = st.devices.map devKey ∧
      (syncOne gid actor now ids st item).insertedRows = st.insertedRows) ∨
    (∃ d, (syncOne gid actor now ids st item).devices = st.devices ++ [d] ∧
      (syncOne gid actor now ids st item).insertedRows = st.insertedRows ++ [d] ∧
      d.family_group_id = gid ∧ d.hwid = panelHwid item ∧
      d.owner_user_id = (if ids.contains actor then actor else minNat ids)) := by
  unfold syncOne
  by_cases hw : (panelHwid item == "") = true
  · rw [if_pos hw]
    exact Or.inl ⟨rfl, rfl⟩
  · rw [if_neg hw]
    dsimp only []
    split
    · refine Or.inl ⟨?_, rfl⟩
      dsimp only []
      exact map_updateFirst_eq (g := devKey) (f := fun d => { d with
        platform := panelPlatform item, device_model := panelModel item,
        last_seen_at := now }) (fun d => rfl) st.devices
    · exact Or.inr ⟨_, rfl, rfl, rfl, rfl, rfl⟩

theorem syncOne_preserves_presence (gid actor now : Nat) (ids : List Nat)
    (st : SyncState) (item : PanelDevice) (hw : String)
    (h : hasGroupHwid st.devices gid hw = true) :
    hasGroupHwid (syncOne gid actor now ids st item).devices gid hw = true := by
  rcases syncOne_devices gid actor now ids st item with ⟨hkeys, _⟩ | ⟨d, hdev, _, _, _, _⟩
  · rwa [hasGroupHwid_congr hkeys]
  · rw [hasGroupHwid_iff_keys] at h ⊢
    obtain ⟨k, hk, h1, h2⟩ := h
    refine ⟨k, ?_, h1, h2⟩
    rw [hdev, List.map_append]
    exact List.mem_append_left _ hk

theorem syncOne_establishes (gid actor now : Nat) (ids : List Nat) (st : SyncState)
    (item : PanelDevice) (hw : (panelHwid item == "") = false) :
    hasGroupHwid (syncOne gid actor now ids st item).devices gid (panelHwid item)
      = true := by
  unfold syncOne
  rw [if_neg (by simp [hw])]
  dsimp only []
  split
  · next hfound =>
    have hpres : hasGroupHwid st.devices gid (panelHwid item) = true := hfound
    dsimp only []
    rwa [hasGroupHwid_congr (map_updateFirst_eq (g := devKey) (f := fun d => { d with
      platform := panelPlatform item, device_model := panelModel item,
      last_seen_at := now }) (fun d => rfl) st.devices)]
  · rw [hasGroupHwid_iff_keys]
    refine ⟨(gid, panelHwid item,
      if ids.contains actor then actor else minNat ids), ?_, rfl, rfl⟩
    rw [List.map_append]
    exact List.mem_append_right _ (by simp [devKey])

theorem sync_fold_preserves_presence (gid actor now : Nat) (ids : List Nat)
    (panel : List PanelDevice) (st : SyncState) (hw : String)
    (h : hasGroupHwid st.devices gid hw = true) :
    hasGroupHwid ((panel.foldl (syncOne gid actor now ids) st).devices) gid hw
      = true := by
  induction panel generalizing st with
  | nil => exact h
  | cons item rest ih =>
    rw [List.foldl_cons]
    exact ih _ (syncOne_preserves_presence gid actor now ids st item hw h)

theorem sync_fold_covers (gid actor now : Nat) (ids : List Nat)
    (panel : List PanelDevice) (st : SyncState) :
    ∀ item ∈ panel, (panelHwid item == "") = false →
      hasGroupHwid ((panel.foldl (syncOne gid actor now ids) st).devices) gid
        (panelHwid item) = true := by
  induction panel generalizing st with
  | nil => intro item h; simp at h
  | cons head rest ih =>
    intro item hitem hw
    rw [List.foldl_cons]
    rcases List.mem_cons.mp hitem with hh | ht
    · subst hh
      exact sync_fold_preserves_presence gid actor now ids rest _ _
        (syncOne_establishes gid actor now ids st item hw)
    · exact ih _ item ht hw

theorem sync_fold_current (gid actor now : Nat) (ids : List Nat)
    (panel : List PanelDevice) (st : SyncState) :
    (panel.foldl (syncOne gid actor now ids) st).current =
      st.current ++ nonemptyHwids panel := by
  induction panel generalizing st with
  | nil => simp [nonemptyHwids]
  | cons item rest ih =>
    rw [List.foldl_cons, ih]
    rw [syncOne_current]
    unfold nonemptyHwids
    rw [List.map_cons]
    by_cases hw : (panelHwid item == "") = true
    · rw [if_pos hw, List.filter_cons_of_neg (by simpa using hw)]
      simp
    · rw [if_neg hw, List.filter_cons_of_pos (by simpa using hw)]
      simp

theorem sync_fold_no_insert (gid actor now : Nat) (ids : List Nat)
    (panel : List PanelDevice) (st : SyncState)
    (hcov : ∀ item ∈ panel, (panelHwid item == "") = false →
      hasGroupHwid st.devices gid (panelHwid item) = true) :
    (panel.foldl (syncOne gid actor now ids) st).insertedRows = st.insertedRows ∧
    (panel.foldl (syncOne gid actor now ids) st).devices.map devKey =
      st.devices.map devKey := by
  induction panel generalizing st with
  | nil => exact ⟨rfl, rfl⟩
  | cons item rest ih =>
    rw [List.foldl_cons]
    have hstep : (syncOne gid actor now ids st item).devices.map devKey =
        st.devices.map devKey ∧
        (syncOne gid actor now ids st item).insertedRows = st.insertedRows := by
      rcases syncOne_devices gid actor now ids st item with ⟨hk, hi⟩ |
        ⟨d, hdev, hins, hgid, hhw, hown⟩
      · exact ⟨hk, hi⟩
      · exfalso
        by_cases hw : (panelHwid item == "") = true
        · unfold syncOne at hdev
          rw [if_pos hw] at hdev
          have : st.devices.length = st.devices.length + 1 := by
            conv_lhs => rw [hdev]
            simp
          omega
        · have hpres := hcov item (List.mem_cons_self item rest)
            (eq_false_of_ne_true hw)
          unfold hasGroupHwid at hpres
          unfold syncOne at hdev
          rw [if_neg (by simp [hw])] at hdev
          dsimp only [] at hdev
          rw [if_pos hpres] at hdev
          dsimp only [] at hdev
          have hlen := congrArg List.length hdev
          rw [length_updateFirst] at hlen
          simp only [List.length_append, List.length_singleton] at hlen
          omega
    obtain ⟨hk, hi⟩ := hstep
    have hcov2 : ∀ it ∈ rest, (panelHwid it == "") = false →
        hasGroupHwid (syncOne gid actor now ids st item).devices gid (panelHwid it)
          = true := by
      intro it hit hw2
      rw [hasGroupHwid_congr hk]
      exact hcov it (List.mem_cons_of_mem item hit) hw2
    obtain ⟨ih1, ih2⟩ := ih _ hcov2
    exact ⟨ih1.trans hi, ih2.trans hk⟩

theorem groupDeviceMap_comp (ds : List FamilyDevice) (gid : Nat) :
    groupDeviceMap ds gid =
      ((ds.map devKey).filter (fun k => k.1 == gid)).map (fun k => (k.2.1, k.2.2)) := by
  induction ds with
  | nil => rfl
  | cons d rest ih =>
    unfold groupDeviceMap at ih ⊢
    rw [List.map_cons, List.filter_cons, List.filter_cons]
    by_cases hg : (d.family_group_id == gid) = true
    · rw [if_pos hg,
        if_pos (show ((devKey d).1 == gid) = true by simpa [devKey] using hg)]
      rw [List.map_cons, List.map_cons, ih]
      rfl
    · rw [if_neg hg,
        if_neg (show ¬(((devKey d).1 == gid) = true) by simpa [devKey] using hg)]
      exact ih

theorem groupDeviceMap_eq_of_keys {ds1 ds2 : List FamilyDevice}
    (h : ds1.map devKey = ds2.map devKey) (gid : Nat) :
    groupDeviceMap ds1 gid = groupDeviceMap ds2 gid := by
  rw [groupDeviceMap_comp, groupDeviceMap_comp, h]

end FamilyCoordinator

namespace FamilyCoordinator

theorem sync_fold_inserted_owner (gid actor now : Nat) (ids : List Nat)
    (hactor : ids.contains actor = true) (panel : List PanelDevice) (st : SyncState)
    (hpre : ∀ d ∈ st.insertedRows, d.owner_user_id = actor) :
    ∀ d ∈ (panel.foldl (syncOne gid actor now ids) st).insertedRows,
      d.owner_user_id = actor := by
  induction panel generalizing st with
  | nil => exact hpre
  | cons item rest ih =>
    rw [List.foldl_cons]
    refine ih _ ?_
    intro d hd
    rcases syncOne_devices gid actor now ids st item with ⟨_, hi⟩ |
      ⟨d0, _, hins, _, _, hown⟩
    · rw [hi] at hd
      exact hpre d hd
    · rw [hins] at hd
      rcases List.mem_append.mp hd with hd | hd
      · exact hpre d hd
      · have hdd : d = d0 := List.mem_singleton.mp hd
        subst hdd
        rw [hown, if_pos hactor]

/-- C10: the actor id is seeded into the active-id set before attribution is
decided, so every row inserted by a device sync is attributed to the acting
user and the lowest-active-member-id fallback is unreachable. -/
theorem sync_inserted_rows_attributed_to_actor (db : DB) (now : Nat)
    (gid actor : Nat) (panel : List PanelDevice) :
    (syncActiveIds db gid actor).contains actor = true ∧
    ∀ d ∈ (sync_family_devices_from_panel db now gid actor panel).insertedRows,
      d.owner_user_id = actor := by
  constructor
  · simp [syncActiveIds]
  · intro d hd
    refine sync_fold_inserted_owner gid actor now (syncActiveIds db gid actor)
      (by simp [syncActiveIds]) panel ⟨db.devices, [], []⟩ (fun d hd => by simp at hd)
      d ?_
    exact hd

end FamilyCoordinator

namespace FamilyCoordinator

/-- After a sync run, every nonempty panel hwid has a row of the group, and
every surviving row of the group carries one of the panel's hwids. -/
theorem sync_run_facts (db : DB) (now : Nat) (gid actor : Nat)
    (panel : List PanelDevice) :
    (∀ item ∈ panel, (panelHwid item == "") = false →
      hasGroupHwid (sync_family_devices_from_panel db now gid actor panel).db.devices
        gid (panelHwid item) = true) ∧
    (∀ d ∈ (sync_family_devices_from_panel db now gid actor panel).db.devices,
      d.family_group_id = gid → (nonemptyHwids panel).contains d.hwid = true) := by
  unfold sync_family_devices_from_panel
  dsimp only []
  have hcur := sync_fold_current gid actor now (syncActiveIds db gid actor) panel
    ⟨db.devices, [], []⟩
  constructor
  · intro item hitem hw
    have hpres := sync_fold_covers gid actor now (syncActiveIds db gid actor) panel
      ⟨db.devices, [], []⟩ item hitem hw
    unfold hasGroupHwid at hpres ⊢
    rw [List.find?_isSome] at hpres ⊢
    obtain ⟨d, hd, hp⟩ := hpres
    refine ⟨d, ?_, hp⟩
    rw [List.mem_filter]
    refine ⟨hd, ?_⟩
    simp only [Bool.and_eq_true, beq_iff_eq] at hp
    have hmemh : d.hwid ∈ (panel.foldl (syncOne gid actor now
        (syncActiveIds db gid actor)) ⟨db.devices, [], []⟩).current := by
      rw [hcur]
      refine List.mem_append_right _ ?_
      rw [hp.2]
      unfold nonemptyHwids
      rw [List.mem_filter]
      exact ⟨List.mem_map_of_mem _ hitem, by simpa using hw⟩
    simp
    exact Or.inr hmemh
  · intro d hd hgid
    rw [List.mem_filter] at hd
    obtain ⟨hdmem, hkeep⟩ := hd
    have hb : (d.family_group_id == gid) = true := by simp [hgid]
    simp only [hb, Bool.true_and, Bool.not_eq_eq_eq_not, Bool.not_true,
      Bool.not_eq_false] at hkeep
    rw [hcur] at hkeep
    simpa using hkeep

/-- A sync run on a state that already reconciles the panel snapshot inserts
nothing, deletes nothing, and keeps the hwid-to-owner mapping of the group. -/
theorem sync_no_change (db : DB) (now : Nat) (gid actor : Nat)
    (panel : List PanelDevice)
    (hcov : ∀ item ∈ panel, (panelHwid item == "") = false →
      hasGroupHwid db.devices gid (panelHwid item) = true)
    (hcur : ∀ d ∈ db.devices, d.family_group_id = gid →
      (nonemptyHwids panel).contains d.hwid = true) :
    (sync_family_devices_from_panel db now gid actor panel).insertedRows = [] ∧
    (sync_family_devices_from_panel db now gid actor panel).deletedRows = [] ∧
    groupDeviceMap (sync_family_devices_from_panel db now gid actor panel).db.devices
      gid = groupDeviceMap db.devices gid := by
  unfold sync_family_devices_from_panel
  dsimp only []
  obtain ⟨hins, hkeys⟩ := sync_fold_no_insert gid actor now (syncActiveIds db gid actor)
    panel ⟨db.devices, [], []⟩ hcov
  have hcurF := sync_fold_current gid actor now (syncActiveIds db gid actor) panel
    ⟨db.devices, [], []⟩
  have hrowok : ∀ d ∈ (panel.foldl (syncOne gid actor now (syncActiveIds db gid actor))
      ⟨db.devices, [], []⟩).devices,
      ¬((d.family_group_id == gid &&
        !(panel.foldl (syncOne gid actor now (syncActiveIds db gid actor))
          ⟨db.devices, [], []⟩).current.contains d.hwid) = true) := by
    intro d hd hcontra
    simp only [Bool.and_eq_true, beq_iff_eq, Bool.not_eq_eq_eq_not, Bool.not_true,
      Bool.not_eq_true] at hcontra
    obtain ⟨hgid, hnc⟩ := hcontra
    have hkd : devKey d ∈ (panel.foldl (syncOne gid actor now
        (syncActiveIds db gid actor)) ⟨db.devices, [], []⟩).devices.map devKey :=
      List.mem_map_of_mem _ hd
    rw [hkeys] at hkd
    obtain ⟨d1, hd1, hk1⟩ := List.mem_map.mp hkd
    have e1 : d1.family_group_id = d.family_group_id := congrArg Prod.fst hk1
    have e2 : d1.hwid = d.hwid := congrArg (fun k => k.2.1) hk1
    have hmem1 := hcur d1 hd1 (by rw [e1, hgid])
    rw [e2] at hmem1
    rw [hcurF] at hnc
    simp only [List.nil_append] at hnc
    rw [hmem1] at hnc
    exact Bool.noConfusion hnc
  refine ⟨hins, ?_, ?_⟩
  · exact List.filter_eq_nil.mpr hrowok
  · have hself : (panel.foldl (syncOne gid actor now (syncActiveIds db gid actor))
        ⟨db.devices, [], []⟩).devices.filter (fun d =>
          !(d.family_group_id == gid &&
            !(panel.foldl (syncOne gid actor now (syncActiveIds db gid actor))
              ⟨db.devices, [], []⟩).current.contains d.hwid)) =
        (panel.foldl (syncOne gid actor now (syncActiveIds db gid actor))
          ⟨db.devices, [], []⟩).devices := by
      refine List.filter_eq_self.mpr (fun d hd => ?_)
      have hx := eq_false_of_ne_true (hrowok d hd)
      rw [hx]
      rfl
    rw [hself]
    exact groupDeviceMap_eq_of_keys hkeys gid

/-- C8: device reconciliation is idempotent.  Re-running the sync with the
same panel snapshot (and no intervening changes) inserts no rows, deletes no
rows, and leaves the group's hwid-to-owner mapping exactly as the first run
left it. -/
theorem sync_reconciliation_idempotent (db : DB) (now1 now2 : Nat)
    (gid actor : Nat) (panel : List PanelDevice) :
    (sync_family_devices_from_panel
      (sync_family_devices_from_panel db now1 gid actor panel).db now2 gid actor
      panel).insertedRows = [] ∧
    (sync_family_devices_from_panel
      (sync_family_devices_from_panel db now1 gid actor panel).db now2 gid actor
      panel).deletedRows = [] ∧
    groupDeviceMap (sync_family_devices_from_panel
      (sync_family_devices_from_panel db now1 gid actor panel).db now2 gid actor
      panel).db.devices gid =
      groupDeviceMap (sync_family_devices_from_panel db now1 gid actor
        panel).db.devices gid := by
  obtain ⟨hcov, hcur⟩ := sync_run_facts db now1 gid actor panel
  exact sync_no_change (sync_family_devices_from_panel db now1 gid actor panel).db
    now2 gid actor panel hcov hcur

end FamilyCoordinator
